import Mathlib

/-!
Shallow embedding of the recurrence lifecycle engine of the
TPS-Global-Context-Menu plugin (src/src/bulk-edit-service.ts and the
recurrence service in src/unnamed/part_001), together with theorems
settling the spec claims about it.

JavaScript dynamic values are modelled by `Value` with JS truthiness;
frontmatter objects by insertion-ordered association lists; the host
environment (clock, rrule evaluator, date formatting, injected I/O
failures) by an explicit `Env` record threaded through the operations.
-/

namespace TPS

/-- A JS scalar value stored in a frontmatter field. -/
inductive Base where
  | str : String → Base
  | num : Int → Base
  | bool : Bool → Base
  deriving DecidableEq, Repr

/-- A JS value stored in a frontmatter field: a scalar or an array of
scalars (frontmatter arrays in this plugin are tag/value lists). -/
inductive Value where
  | base : Base → Value
  | arr : List Base → Value
  deriving DecidableEq, Repr

/-- Shorthand for a string value. -/
def vstr (s : String) : Value := .base (.str s)

/-- A frontmatter object: insertion-ordered key/value pairs. -/
abbrev Fm := List (String × Value)

/-- `fm[k]`, `undefined` mapped to `none`. -/
def fmGet : Fm → String → Option Value
  | [], _ => none
  | kv :: tl, k => if kv.1 = k then some kv.2 else fmGet tl k

/-- `fm[k] = v`: overwrite in place, or append a new key. -/
def fmSet : Fm → String → Value → Fm
  | [], k, v => [(k, v)]
  | kv :: tl, k, v => if kv.1 = k then (k, v) :: tl else kv :: fmSet tl k v

/-- `delete fm[k]`. -/
def fmDelete : Fm → String → Fm
  | [], _ => []
  | kv :: tl, k => if kv.1 = k then fmDelete tl k else kv :: fmDelete tl k

/-- JS truthiness of a scalar. -/
def Base.truthy : Base → Bool
  | .str s => s ≠ ""
  | .num n => n ≠ 0
  | .bool b => b

/-- JS truthiness of a value (arrays are always truthy). -/
def truthy : Value → Bool
  | .base b => b.truthy
  | .arr _ => true

/-- JS truthiness of a possibly-undefined value. -/
def truthyO : Option Value → Bool
  | none => false
  | some v => truthy v

/-- JS `a || b`. -/
def jsOr (a b : Option Value) : Option Value :=
  if truthyO a then a else b

/-- JS `a || null`. -/
def jsOrNull (a : Option Value) : Option Value :=
  if truthyO a then a else none

/-- JS strict equality of a field against a string literal. -/
def jsEqStr (a : Option Value) (s : String) : Bool :=
  a = some (vstr s)

/-! ### Session suppression tracker (class SessionTracker in part_001) -/

/-- Lookup in the `Map<string, number>` of modification timestamps. -/
def tlookup : List (String × Int) → String → Option Int
  | [], _ => none
  | kv :: tl, p => if kv.1 = p then some kv.2 else tlookup tl p

/-- `Map.delete`. -/
def terase : List (String × Int) → String → List (String × Int)
  | [], _ => []
  | kv :: tl, p => if kv.1 = p then terase tl p else kv :: terase tl p

/-- State of the `SessionTracker` class. -/
structure SessionTracker where
  modifiedFiles : List (String × Int)
  sessionDuration : Int
  deriving DecidableEq, Repr

/-- `new SessionTracker(durationMinutes)`. -/
def SessionTracker.create (durationMinutes : Int) : SessionTracker :=
  { modifiedFiles := [], sessionDuration := durationMinutes * 60 * 1000 }

/-- `updateDuration(durationMinutes)`. -/
def SessionTracker.updateDuration (t : SessionTracker) (durationMinutes : Int) :
    SessionTracker :=
  { t with sessionDuration := durationMinutes * 60 * 1000 }

/-- `markAsModified(filePath)`; `now` is the value of `Date.now()`. -/
def SessionTracker.markAsModified (t : SessionTracker) (p : String) (now : Int) :
    SessionTracker :=
  { t with modifiedFiles := (p, now) :: terase t.modifiedFiles p }

/-- `wasRecentlyModified(filePath)`: returns the boolean and the updated
tracker (expired entries are deleted as a side effect).  The `lastModified == 0`
case models the JS falsy check `if (!lastModified) return false`. -/
def SessionTracker.wasRecentlyModified (t : SessionTracker) (p : String) (now : Int) :
    Bool × SessionTracker :=
  match tlookup t.modifiedFiles p with
  | none => (false, t)
  | some lastModified =>
    if lastModified = 0 then (false, t)
    else if now - lastModified > t.sessionDuration then
      (false, { t with modifiedFiles := terase t.modifiedFiles p })
    else (true, t)

/-- `clear()`. -/
def SessionTracker.clearAll (t : SessionTracker) : SessionTracker :=
  { t with modifiedFiles := [] }

/-! ### The rrule evaluator and host environment -/

/-- The options object produced by `RRule.parseString`; `payload` stands for
the parsed rule content opaque to this plugin. -/
structure RuleOptions where
  dtstart : Option Int
  payload : String
  deriving DecidableEq, Repr

/-- Host environment: wall clock, rrule library, moment formatting, and
injected failure points for the vault I/O the code wraps in try/catch. -/
structure Env where
  /-- `Date.now()` / `new Date()`, as epoch milliseconds. -/
  now : Int
  /-- `new Date(string)` on a scheduled field value. -/
  parseDate : Value → Int
  /-- `RRule.parseString`, which may throw on malformed input. -/
  parseString : Value → Except String RuleOptions
  /-- `new RRule(options).after(date, false)`: next occurrence strictly after. -/
  after : RuleOptions → Int → Option Int
  /-- `window.moment(d).format('YYYY-MM-DD')`. -/
  formatDate : Int → String
  /-- `window.moment(d).format('YYYY-MM-DDTHH:mm:ss')`. -/
  formatTimestamp : Int → String
  /-- whether `processFrontMatter` throws for a given path (applyToFiles catch). -/
  patchFails : String → Bool
  /-- whether `vault.create` throws for a given path. -/
  createFails : String → Bool

/-- The anchor date of `getNextOccurrence`:
`currentDate ? new Date(currentDate) : new Date()`. -/
def anchorOf (env : Env) (currentDate : Option Value) : Int :=
  match currentDate with
  | some v => if truthy v then env.parseDate v else env.now
  | none => env.now

/-- `getNextOccurrence(recurrenceRule, currentDate)` from BulkEditService.
Returns the computed date (or null) together with the log entries emitted;
the catch block maps evaluator exceptions to null plus a logged message. -/
def getNextOccurrence (env : Env) (recurrenceRule : Value) (currentDate : Option Value) :
    Option Int × List String :=
  let startDate := anchorOf env currentDate
  match env.parseString recurrenceRule with
  | .error e => (none, ["[TPS GCM] Failed to calculate next recurrence: " ++ e])
  | .ok options => (env.after { options with dtstart := some startDate } startDate, [])

/-! ### Plugin settings (the fields the recurrence engine reads) -/

structure Settings where
  enableRecurrence : Bool
  promptOnRecurrenceEdit : Bool
  recurrenceCompletionStatuses : List String
  recurrenceDefaultStatus : String
  checkOpenChecklistItems : Bool
  recurrencePromptTimeout : Int
  deriving DecidableEq, Repr

/-- `recurrenceCompletionStatuses?.length ? ... : ['complete', 'wont-do']`. -/
def Settings.terminalStatuses (s : Settings) : List String :=
  if s.recurrenceCompletionStatuses ≠ [] then s.recurrenceCompletionStatuses
  else ["complete", "wont-do"]

/-! ### Vault and files -/

/-- The identifying part of a `TFile` handle. -/
structure FileRef where
  path : String
  basename : String
  parentPath : Option String
  extension : String
  deriving DecidableEq, Repr

/-- A note stored in the vault: identity, frontmatter and body text. -/
structure NoteFile where
  path : String
  basename : String
  parentPath : Option String
  extension : String
  fm : Fm
  body : String
  deriving DecidableEq, Repr

abbrev Vault := List NoteFile

/-- `vault.getAbstractFileByPath` / reading a file by path. -/
def vlookup : Vault → String → Option NoteFile
  | [], _ => none
  | nf :: tl, p => if nf.path = p then some nf else vlookup tl p

/-- `vault.adapter.exists(path)`. -/
def vexists (v : Vault) (p : String) : Bool :=
  (vlookup v p).isSome

/-- `fileManager.processFrontMatter(file, f)` (on the file at `p`). -/
def patchFM (v : Vault) (p : String) (f : Fm → Fm) : Vault :=
  v.map (fun nf => if nf.path = p then { nf with fm := f nf.fm } else nf)

/-- `vault.create(path, content)` where the content duplicates the source
note's frontmatter block and body. -/
def vcreate (v : Vault) (path basename : String) (parentPath : Option String)
    (fm : Fm) (body : String) : Vault :=
  v ++ [{ path := path, basename := basename, parentPath := parentPath,
          extension := "md", fm := fm, body := body }]

/-- `metadataCache.getFileCache(file)?.frontmatter`: only markdown files are
indexed. -/
def cacheFm (v : Vault) (f : FileRef) : Option Fm :=
  if f.extension = "md" then (vlookup v f.path).map (·.fm) else none

/-- Character-list based lowercasing (the embedding's `toLowerCase()`;
`String.toLower` itself does not reduce in the kernel). -/
def toLowerStr (s : String) : String := String.mk (s.toList.map Char.toLower)

/-- Combined mutable state of the system: vault plus suppression tracker. -/
structure St where
  vault : Vault
  tracker : SessionTracker
  deriving DecidableEq, Repr

/-- `recurrenceService.markFileAsModified(path)`. -/
def markFileAsModified (env : Env) (st : St) (p : String) : St :=
  { st with tracker := st.tracker.markAsModified p env.now }

/-! ### Recurrence field helpers -/

/-- `fm.recurrenceRule || fm.recurrence`. -/
def ruleField (fm : Fm) : Option Value :=
  jsOr (fmGet fm "recurrenceRule") (fmGet fm "recurrence")

/-- Whether the note carries a (truthy) recurrence rule. -/
def ruleTruthy (fm : Fm) : Bool :=
  truthyO (ruleField fm)

/-- The frontmatter mutation of `clearRecurrenceRule`:
`delete fm.recurrenceRule; delete fm.recurrence`. -/
def clearRecurrenceRuleFm (fm : Fm) : Fm :=
  fmDelete (fmDelete fm "recurrenceRule") "recurrence"

/-- `clearRecurrenceRule(file)` from BulkEditService. -/
def clearRecurrenceRule (v : Vault) (p : String) : Vault :=
  patchFM v p clearRecurrenceRuleFm

/-- `basename.replace(/ \d{4}-\d{2}-\d{2}$/, '')`: the trailing-suffix shape. -/
def dateSuffixMatch : List Char → Bool
  | [' ', a, b, c, d, '-', e, f, '-', g, h] =>
    a.isDigit && b.isDigit && c.isDigit && d.isDigit &&
    e.isDigit && f.isDigit && g.isDigit && h.isDigit
  | _ => false

/-- Strip any existing trailing `" YYYY-MM-DD"` date suffix from a base name. -/
def stripDateSuffix (s : String) : String :=
  let cs := s.toList
  if 11 ≤ cs.length && dateSuffixMatch (cs.drop (cs.length - 11)) then
    String.mk (cs.take (cs.length - 11))
  else s

/-- Successor file name: stripped base name, new date, `.md`. -/
def successorFileName (env : Env) (f : FileRef) (nextDate : Int) : String :=
  stripDateSuffix f.basename ++ " " ++ env.formatDate nextDate ++ ".md"

/-- Successor path: `file.parent ? parent.path + '/' + name : name`. -/
def successorPath (env : Env) (f : FileRef) (nextDate : Int) : String :=
  match f.parentPath with
  | some pp => pp ++ "/" ++ successorFileName env f nextDate
  | none => successorFileName env f nextDate

/-- The configured default status for new recurrence instances:
`settings.recurrenceDefaultStatus || 'open'`. -/
def Settings.defaultStatus (s : Settings) : String :=
  if s.recurrenceDefaultStatus ≠ "" then s.recurrenceDefaultStatus else "open"

/-- `createNextRecurrenceInstance(file, frontmatter, carryStatus)` from
BulkEditService.  Returns the new vault, the `handled` boolean and the log
entries.  `carryStatus` is accepted (as in the source) but never read.
The injected failure points model the try/catch around vault I/O: a failed
`vault.read` (file vanished) or a throwing `vault.create` lands in the catch
block, which reports `false` with the vault unchanged. -/
def createNextRecurrenceInstance (env : Env) (settings : Settings) (v : Vault)
    (file : FileRef) (frontmatter : Fm) (carryStatus : Option Value) :
    Vault × Bool × List String :=
  match ruleField frontmatter with
  | none => (v, false, [])
  | some recurrenceRule =>
    if truthy recurrenceRule = false then (v, false, [])
    else
      let currentScheduled := fmGet frontmatter "scheduled"
      let (nextDate, lg) := getNextOccurrence env recurrenceRule currentScheduled
      match nextDate with
      | none =>
        (clearRecurrenceRule v file.path, true,
         lg ++ ["[TPS GCM] Could not calculate next recurrence date"])
      | some nd =>
        let baseName := stripDateSuffix file.basename
        let newFileName := successorFileName env file nd
        let newFilePath := successorPath env file nd
        if vexists v newFilePath then
          (clearRecurrenceRule v file.path, true,
           lg ++ ["[TPS GCM] Next recurrence already exists, skipping creation: "
                  ++ newFilePath])
        else
          match vlookup v file.path with
          | none => (v, false, lg ++ ["[TPS GCM] Failed to create next recurrence instance"])
          | some src =>
            if env.createFails newFilePath then
              (v, false, lg ++ ["[TPS GCM] Failed to create next recurrence instance"])
            else
              let newScheduled := env.formatTimestamp nd
              let newStatus := settings.defaultStatus
              let v1 := vcreate v newFilePath (baseName ++ " " ++ env.formatDate nd)
                          file.parentPath src.fm src.body
              let v2 := patchFM v1 newFilePath (fun fm =>
                fmSet (fmSet (fmSet fm "scheduled" (vstr newScheduled))
                  "title" (vstr baseName)) "status" (vstr newStatus))
              let v3 := clearRecurrenceRule v2 file.path
              (v3, true, lg ++ ["Created next recurrence: " ++ newFileName])

/-! ### Bulk mutation plumbing -/

/-- One iteration of the `applyToFiles` loop: skip non-markdown files, mark
the file in the suppression tracker, then patch its frontmatter; a throwing
patch (`env.patchFails`, or a vanished file) is caught and only skips the
count increment. -/
def applyToFilesStep (env : Env) (cb : Fm → Fm) (acc : St × Nat) (f : FileRef) :
    St × Nat :=
  if toLowerStr f.extension != "md" then acc
  else if env.patchFails f.path || !(vexists acc.1.vault f.path) then
    ({ acc.1 with tracker := acc.1.tracker.markAsModified f.path env.now }, acc.2)
  else
    ({ vault := patchFM acc.1.vault f.path cb,
       tracker := acc.1.tracker.markAsModified f.path env.now }, acc.2 + 1)

/-- `applyToFiles(files, callback)` from BulkEditService. -/
def applyToFiles (env : Env) (st : St) (files : List FileRef) (cb : Fm → Fm) :
    St × Nat :=
  files.foldl (applyToFilesStep env cb) (st, 0)

/-- The `updateFrontmatter` mutation callback: assign each key, deleting on
null/undefined. -/
def applyUpdates (updates : List (String × Option Value)) (fm : Fm) : Fm :=
  updates.foldl
    (fun fm kv =>
      match kv.2 with
      | none => fmDelete fm kv.1
      | some v => fmSet fm kv.1 v) fm

/-- The `addTag` mutation callback. -/
def addTagFm (tag key : String) (fm : Fm) : Fm :=
  let tags : List Base :=
    match fmGet fm key with
    | none => []
    | some (.arr l) => l
    | some (.base b) => if b.truthy then [b] else []
  if tags.contains (.str tag) then fm
  else fmSet fm key (.arr (tags ++ [.str tag]))

/-- The `removeTag` mutation callback. -/
def removeTagFm (tag key : String) (fm : Fm) : Fm :=
  match fmGet fm key with
  | none => fm
  | some v =>
    if truthy v = false then fm
    else
      let tags : List Base := match v with | .arr l => l | .base b => [b]
      fmSet fm key (.arr (tags.filter (fun t => t != Base.str tag)))

/-- A choice returned by the RecurrenceUpdateModal. -/
inductive Choice where
  | updateAll
  | split
  | cancel
  deriving DecidableEq, Repr

/-! ### The orchestrator: prompting, splitting, frontmatter updates

`updateFrontmatter` prompts through `promptForFrontmatterChange`, whose
`split` outcome runs `splitInstance`, which in turn calls back into
`updateFrontmatter` — in the source this recursion is only bounded by user
choices, so the embedding carries an explicit fuel parameter.  `decide`
models the user's modal choice for a given note path. -/

mutual

/-- The per-file recurrence-prompt loop at the head of `updateFrontmatter`.
Returns the evolved state and whether the user cancelled the operation. -/
def ufPromptLoop (fuel : Nat) (env : Env) (settings : Settings)
    (decide : String → Choice) (updates : List (String × Option Value))
    (st : St) : List FileRef → St × Bool
  | [] => (st, false)
  | f :: rest =>
    match cacheFm st.vault f with
    | none => ufPromptLoop fuel env settings decide updates st rest
    | some fm =>
      if ruleTruthy fm = false then
        ufPromptLoop fuel env settings decide updates st rest
      else if jsEqStr (fmGet fm "status") "complete"
           || jsEqStr (fmGet fm "status") "wont-do" then
        ufPromptLoop fuel env settings decide updates st rest
      else if (updates.map (·.1)).contains "status" then
        ufPromptLoop fuel env settings decide updates st rest
      else
        -- the computed changeDesc only feeds the modal's message text
        match promptForFrontmatterChange fuel env settings decide st f with
        | (st', result, _) =>
          if result = Choice.cancel then (st', true)
          else ufPromptLoop fuel env settings decide updates st' rest
  termination_by fs => (fuel, fs.length + 1)

/-- `updateFrontmatter(files, updates)` from BulkEditService. -/
def updateFrontmatter (fuel : Nat) (env : Env) (settings : Settings)
    (decide : String → Choice) (st : St) (files : List FileRef)
    (updates : List (String × Option Value)) : St × Nat :=
  match fuel with
  | 0 => (st, 0)
  | fuel + 1 =>
    let r :=
      if settings.enableRecurrence && settings.promptOnRecurrenceEdit then
        ufPromptLoop fuel env settings decide updates st files
      else (st, false)
    if r.2 then (r.1, 0)
    else applyToFiles env r.1 files (applyUpdates updates)
  termination_by (fuel, 0)

/-- `promptForFrontmatterChange(file, changeDescription)` from the
RecurrenceService.  Returns the evolved state, the choice propagated to the
caller, and whether a modal was actually shown. -/
def promptForFrontmatterChange (fuel : Nat) (env : Env) (settings : Settings)
    (decide : String → Choice) (st : St) (file : FileRef) : St × Choice × Bool :=
  match fuel with
  | 0 => (st, Choice.cancel, false)
  | fuel + 1 =>
    match st.tracker.wasRecentlyModified file.path env.now with
    | (recent, tr1) =>
      let st1 : St := { st with tracker := tr1 }
      if recent then (st1, Choice.updateAll, false)
      else
        match decide file.path with
        | Choice.updateAll =>
          (markFileAsModified env st1 file.path, Choice.updateAll, true)
        | Choice.split =>
          let st2 := splitInstance fuel env settings decide st1 file
          (markFileAsModified env st2 file.path, Choice.split, true)
        | Choice.cancel => (st1, Choice.cancel, true)
  termination_by (fuel, 0)

/-- `splitInstance(file)` from the RecurrenceService: create the next
instance from the current frontmatter snapshot, then strip the rule fields
from the current file. -/
def splitInstance (fuel : Nat) (env : Env) (settings : Settings)
    (decide : String → Choice) (st : St) (file : FileRef) : St :=
  match fuel with
  | 0 => st
  | fuel + 1 =>
    match cacheFm st.vault file with
    | none => st
    | some fm =>
      let r := createNextRecurrenceInstance env settings st.vault file fm none
      let st1 : St := { st with vault := r.1 }
      (updateFrontmatter fuel env settings decide st1 [file]
        [("recurrenceRule", none), ("recurrence", none)]).1
  termination_by (fuel, 0)

end

/-! ### Tag mutations -/

/-- The prompt loop at the head of `addTag`/`removeTag`: prompts at most once
(break after the first prompting file); returns (state, cancelled). -/
def tagPromptLoop (fuel : Nat) (env : Env) (settings : Settings)
    (decide : String → Choice) (st : St) : List FileRef → St × Bool
  | [] => (st, false)
  | f :: rest =>
    match cacheFm st.vault f with
    | none => tagPromptLoop fuel env settings decide st rest
    | some fm =>
      if ruleTruthy fm && !(jsEqStr (fmGet fm "status") "complete")
         && !(jsEqStr (fmGet fm "status") "wont-do") then
        match promptForFrontmatterChange fuel env settings decide st f with
        | (st', result, _) => (st', result = Choice.cancel)
      else tagPromptLoop fuel env settings decide st rest

/-- `addTag(files, tag, key)` from BulkEditService. -/
def addTag (fuel : Nat) (env : Env) (settings : Settings)
    (decide : String → Choice) (st : St) (files : List FileRef)
    (tag : String) (key : String) : St × Nat :=
  let r :=
    if settings.enableRecurrence && settings.promptOnRecurrenceEdit then
      tagPromptLoop fuel env settings decide st files
    else (st, false)
  if r.2 then (r.1, 0)
  else applyToFiles env r.1 files (addTagFm tag key)

/-- `removeTag(files, tag, key)` from BulkEditService. -/
def removeTag (fuel : Nat) (env : Env) (settings : Settings)
    (decide : String → Choice) (st : St) (files : List FileRef)
    (tag : String) (key : String) : St × Nat :=
  let r :=
    if settings.enableRecurrence && settings.promptOnRecurrenceEdit then
      tagPromptLoop fuel env settings decide st files
    else (st, false)
  if r.2 then (r.1, 0)
  else applyToFiles env r.1 files (removeTagFm tag key)

/-! ### Focus and content-modification triggers -/

/-- `promptOnFocus(file)`: every outcome marks the path as interacted;
`split` additionally runs `splitInstance`. -/
def promptOnFocus (fuel : Nat) (env : Env) (settings : Settings)
    (decide : String → Choice) (st : St) (file : FileRef) : St :=
  match decide file.path with
  | Choice.updateAll => markFileAsModified env st file.path
  | Choice.split =>
    markFileAsModified env (splitInstance fuel env settings decide st file) file.path
  | Choice.cancel => markFileAsModified env st file.path

/-- `handleFileFocus(file)`: returns the evolved state and whether a prompt
was shown. -/
def handleFileFocus (fuel : Nat) (env : Env) (settings : Settings)
    (decide : String → Choice) (st : St) (file : FileRef) : St × Bool :=
  match st.tracker.wasRecentlyModified file.path env.now with
  | (recent, tr1) =>
    let st1 : St := { st with tracker := tr1 }
    if recent then (st1, false)
    else
      match cacheFm st1.vault file with
      | none => (st1, false)
      | some fm =>
        if ruleTruthy fm = false then (st1, false)
        else if jsEqStr (fmGet fm "status") "complete"
             || jsEqStr (fmGet fm "status") "wont-do" then (st1, false)
        else (promptOnFocus fuel env settings decide st1 file, true)

/-- `promptForContentChange(file)`: every outcome (including cancel) marks
the path as interacted; `split` additionally runs `splitInstance`. -/
def promptForContentChange (fuel : Nat) (env : Env) (settings : Settings)
    (decide : String → Choice) (st : St) (file : FileRef) : St :=
  match decide file.path with
  | Choice.updateAll => markFileAsModified env st file.path
  | Choice.split =>
    markFileAsModified env (splitInstance fuel env settings decide st file) file.path
  | Choice.cancel => markFileAsModified env st file.path

/-- `handleFileModification(file)`: returns the evolved state and whether a
prompt was shown. -/
def handleFileModification (fuel : Nat) (env : Env) (settings : Settings)
    (decide : String → Choice) (st : St) (file : FileRef) : St × Bool :=
  match st.tracker.wasRecentlyModified file.path env.now with
  | (recent, tr1) =>
    let st1 : St := { st with tracker := tr1 }
    if recent then (st1, false)
    else
      match cacheFm st1.vault file with
      | none => (st1, false)
      | some fm =>
        if ruleTruthy fm = false then (st1, false)
        else if jsEqStr (fmGet fm "status") "complete"
             || jsEqStr (fmGet fm "status") "wont-do" then (st1, false)
        else (promptForContentChange fuel env settings decide st1 file, true)

/-! ### Checklist prompt and setStatus -/

/-- The result of the ChecklistPromptModal. -/
inductive ChecklistAction where
  | cancel
  | openNote
  | complete
  | progress
  | ignore
  deriving DecidableEq, Repr

/-- Split into lines at newline characters (char-level; `String.splitOn`
does not reduce in the kernel). -/
def splitLinesAux : List Char → List Char → List String
  | [], acc => [String.mk acc.reverse]
  | '\n' :: rest, acc => String.mk acc.reverse :: splitLinesAux rest []
  | c :: rest, acc => splitLinesAux rest (c :: acc)

def splitLines (s : String) : List String := splitLinesAux s.toList []

/-- `.trim()` (char-level). -/
def trimStr (s : String) : String :=
  String.mk (((s.toList.dropWhile Char.isWhitespace).reverse.dropWhile
    Char.isWhitespace).reverse)

/-- One line against `/^\s*-\s*\[ \]\s+(.*)$/`, returning the trimmed capture. -/
def matchIncompleteItem (line : String) : Option String :=
  match line.toList.dropWhile Char.isWhitespace with
  | '-' :: rest =>
    match rest.dropWhile Char.isWhitespace with
    | '[' :: ' ' :: ']' :: c :: rest2 =>
      if c.isWhitespace then some (trimStr (String.mk rest2)) else none
    | _ => none
  | _ => none

/-- `scanChecklistItems(file)`. -/
def scanChecklistItems (v : Vault) (f : FileRef) : List String :=
  match vlookup v f.path with
  | none => []
  | some nf => (splitLines nf.body).filterMap matchIncompleteItem

/-- One line of `updateChecklistItems`: `^(\s*-\s*)\[ \]` replaced by the
prefix plus `[mark]`. -/
def updateChecklistLine (mark : Char) (line : String) : String :=
  let cs := line.toList
  let ws1 := cs.takeWhile Char.isWhitespace
  match cs.dropWhile Char.isWhitespace with
  | '-' :: r2 =>
    let ws2 := r2.takeWhile Char.isWhitespace
    match r2.dropWhile Char.isWhitespace with
    | '[' :: ' ' :: ']' :: rest =>
      String.mk (ws1 ++ '-' :: (ws2 ++ '[' :: mark :: ']' :: rest))
    | _ => line
  | _ => line

/-- `updateChecklistItems(file, action)` rewriting the body. -/
def updateChecklistItems (v : Vault) (p : String) (mark : Char) : Vault :=
  v.map (fun nf =>
    if nf.path = p then
      { nf with body :=
          String.intercalate "\n" ((splitLines nf.body).map (updateChecklistLine mark)) }
    else nf)

/-- The single-file checklist prompt at the head of `setStatus`; `none`
means the status change is aborted (user chose cancel or open). -/
def checklistStep (settings : Settings) (caction : ChecklistAction) (st : St)
    (files : List FileRef) (status : String) : Option St :=
  if settings.checkOpenChecklistItems && status = "complete" && files.length = 1 then
    match files with
    | [f] =>
      if 0 < (scanChecklistItems st.vault f).length then
        match caction with
        | .cancel => none
        | .openNote => none
        | .complete => some { st with vault := updateChecklistItems st.vault f.path 'x' }
        | .progress => some { st with vault := updateChecklistItems st.vault f.path '?' }
        | .ignore => some st
      else some st
    | _ => some st
  else some st

/-- The terminal-status recurrence loop inside `setStatus`; also returns the
ghost trace of `createNextRecurrenceInstance` invocations
(path, pre-transition status). -/
def statusRecurrenceLoop (env : Env) (settings : Settings) (st : St) :
    List FileRef → St × List (String × Option Value)
  | [] => (st, [])
  | f :: rest =>
    match cacheFm st.vault f with
    | none => statusRecurrenceLoop env settings st rest
    | some fm =>
      if ruleTruthy fm then
        let previousStatus := jsOrNull (fmGet fm "status")
        let r := createNextRecurrenceInstance env settings st.vault f fm previousStatus
        let v' := if r.2.1 then r.1 else clearRecurrenceRule r.1 f.path
        let tail := statusRecurrenceLoop env settings { st with vault := v' } rest
        (tail.1, (f.path, previousStatus) :: tail.2)
      else statusRecurrenceLoop env settings st rest

/-- `setStatus(files, status)` from BulkEditService.  Returns the final
state, the affected-file count, and the ghost invocation trace of the
recurrence loop. -/
def setStatus (fuel : Nat) (env : Env) (settings : Settings)
    (decide : String → Choice) (caction : ChecklistAction) (st : St)
    (files : List FileRef) (status : String) :
    St × Nat × List (String × Option Value) :=
  match checklistStep settings caction st files status with
  | none => (st, 0, [])
  | some st1 =>
    let r :=
      if settings.enableRecurrence && settings.terminalStatuses.contains status then
        statusRecurrenceLoop env settings st1 files
      else (st1, [])
    let r2 := updateFrontmatter fuel env settings decide r.1 files
      [("status", some (vstr status))]
    (r2.1, r2.2, r.2)

/-! ## Basic lemmas about the embedding -/

theorem fmGet_fmDelete_self (fm : Fm) (k : String) :
    fmGet (fmDelete fm k) k = none := by
  induction fm with
  | nil => rfl
  | cons kv tl ih =>
    by_cases h : kv.1 = k
    · rw [fmDelete, if_pos h]; exact ih
    · rw [fmDelete, if_neg h, fmGet, if_neg h]; exact ih

theorem fmGet_fmDelete_ne (fm : Fm) (k k' : String) (h : k ≠ k') :
    fmGet (fmDelete fm k') k = fmGet fm k := by
  induction fm with
  | nil => rfl
  | cons kv tl ih =>
    by_cases hk' : kv.1 = k'
    · have hk : kv.1 ≠ k := fun hh => h (hh ▸ hk')
      rw [fmDelete, if_pos hk', ih, fmGet, if_neg hk]
    · rw [fmDelete, if_neg hk']
      by_cases hk : kv.1 = k
      · rw [fmGet, if_pos hk, fmGet, if_pos hk]
      · rw [fmGet, if_neg hk, fmGet, if_neg hk]; exact ih

theorem fmGet_fmSet_self (fm : Fm) (k : String) (v : Value) :
    fmGet (fmSet fm k v) k = some v := by
  induction fm with
  | nil => rw [fmSet, fmGet, if_pos rfl]
  | cons kv tl ih =>
    by_cases h : kv.1 = k
    · rw [fmSet, if_pos h, fmGet, if_pos rfl]
    · rw [fmSet, if_neg h, fmGet, if_neg h]; exact ih

theorem fmGet_fmSet_ne (fm : Fm) (k k' : String) (v : Value) (h : k ≠ k') :
    fmGet (fmSet fm k' v) k = fmGet fm k := by
  induction fm with
  | nil => simp [fmSet, fmGet, Ne.symm h]
  | cons kv tl ih =>
    by_cases hk' : kv.1 = k'
    · have hk : kv.1 ≠ k := fun hh => h (hh ▸ hk')
      rw [fmSet, if_pos hk', fmGet, if_neg (Ne.symm h), fmGet, if_neg hk]
    · rw [fmSet, if_neg hk']
      by_cases hk : kv.1 = k
      · rw [fmGet, if_pos hk, fmGet, if_pos hk]
      · rw [fmGet, if_neg hk, fmGet, if_neg hk]; exact ih

theorem ruleTruthy_clearRecurrenceRuleFm (fm : Fm) :
    ruleTruthy (clearRecurrenceRuleFm fm) = false := by
  have h1 : fmGet (clearRecurrenceRuleFm fm) "recurrenceRule" = none := by
    rw [clearRecurrenceRuleFm, fmGet_fmDelete_ne _ _ _ (by decide),
      fmGet_fmDelete_self]
  have h2 : fmGet (clearRecurrenceRuleFm fm) "recurrence" = none := by
    rw [clearRecurrenceRuleFm, fmGet_fmDelete_self]
  simp [ruleTruthy, ruleField, jsOr, h1, h2, truthyO]

theorem fmGet_clearRecurrenceRuleFm_ne (fm : Fm) (k : String)
    (h1 : k ≠ "recurrenceRule") (h2 : k ≠ "recurrence") :
    fmGet (clearRecurrenceRuleFm fm) k = fmGet fm k := by
  rw [clearRecurrenceRuleFm, fmGet_fmDelete_ne _ _ _ h2, fmGet_fmDelete_ne _ _ _ h1]

/-! ### Tracker lemmas -/

theorem tlookup_terase_self (l : List (String × Int)) (p : String) :
    tlookup (terase l p) p = none := by
  induction l with
  | nil => rfl
  | cons kv tl ih =>
    by_cases h : kv.1 = p
    · rw [terase, if_pos h]; exact ih
    · rw [terase, if_neg h, tlookup, if_neg h]; exact ih

theorem tlookup_terase_ne (l : List (String × Int)) (p q : String) (h : q ≠ p) :
    tlookup (terase l p) q = tlookup l q := by
  induction l with
  | nil => rfl
  | cons kv tl ih =>
    by_cases hk : kv.1 = p
    · have hq : kv.1 ≠ q := fun hh => h (hh ▸ hk)
      rw [terase, if_pos hk, ih, tlookup, if_neg hq]
    · rw [terase, if_neg hk]
      by_cases hq : kv.1 = q
      · rw [tlookup, if_pos hq, tlookup, if_pos hq]
      · rw [tlookup, if_neg hq, tlookup, if_neg hq]; exact ih

theorem tlookup_markAsModified_self (t : SessionTracker) (p : String) (now : Int) :
    tlookup (t.markAsModified p now).modifiedFiles p = some now := by
  simp [SessionTracker.markAsModified, tlookup]

/-! ## C7: the suppression window -/

/-- C7: if `markAsModified(p)` is recorded at time `T` (with the window
duration `W = sessionDuration`), then `wasRecentlyModified(p)` is true for
every query at time `≤ T + W`, and false for every query at time `> T + W`,
which additionally deletes the expired entry as a side effect; and a path
with no recorded entry always yields false.  (`0 < T` reflects that
`Date.now()` timestamps are positive; a zero timestamp would be JS-falsy.) -/
theorem suppression_window_correct (t0 : SessionTracker) (p : String) (T q : Int)
    (hT : 0 < T) :
    ((q ≤ T + t0.sessionDuration →
        ((t0.markAsModified p T).wasRecentlyModified p q).1 = true) ∧
     (T + t0.sessionDuration < q →
        ((t0.markAsModified p T).wasRecentlyModified p q).1 = false ∧
        tlookup (((t0.markAsModified p T).wasRecentlyModified p q).2).modifiedFiles p
          = none) ∧
     (∀ t : SessionTracker, tlookup t.modifiedFiles p = none →
        (t.wasRecentlyModified p q).1 = false)) := by
  have hlook := tlookup_markAsModified_self t0 p T
  have hT0 : ¬ (T = 0) := by omega
  refine ⟨?_, ?_, ?_⟩
  · intro hq
    rw [SessionTracker.wasRecentlyModified, hlook]
    have hdur : (t0.markAsModified p T).sessionDuration = t0.sessionDuration := rfl
    simp only [hT0, if_false, hdur]
    have : ¬ (q - T > t0.sessionDuration) := by omega
    simp [this]
  · intro hq
    rw [SessionTracker.wasRecentlyModified, hlook]
    have hdur : (t0.markAsModified p T).sessionDuration = t0.sessionDuration := rfl
    simp only [hT0, if_false, hdur]
    have : q - T > t0.sessionDuration := by omega
    simp only [this, if_true]
    constructor
    · simp
    · exact tlookup_terase_self _ p
  · intro t ht
    rw [SessionTracker.wasRecentlyModified, ht]

/-- Witness for C7 at a concrete tracker: entry recorded at T = 1000 with a
5-minute window; a query at 5000 is inside the window, a query at 400000 is
outside and evicts the entry, and an unknown path yields false. -/
theorem suppression_window_correct_witness :
    (((SessionTracker.create 5).markAsModified "n.md" 1000).wasRecentlyModified
        "n.md" 5000).1 = true ∧
    (((SessionTracker.create 5).markAsModified "n.md" 1000).wasRecentlyModified
        "n.md" 400000).1 = false ∧
    tlookup ((((SessionTracker.create 5).markAsModified "n.md" 1000).wasRecentlyModified
        "n.md" 400000).2).modifiedFiles "n.md" = none ∧
    ((SessionTracker.create 5).wasRecentlyModified "n.md" 5000).1 = false := by
  have h1 := (suppression_window_correct (SessionTracker.create 5) "n.md" 1000 5000
    (by decide)).1 (by decide)
  have h2 := (suppression_window_correct (SessionTracker.create 5) "n.md" 1000 400000
    (by decide)).2.1 (by decide)
  have h3 := (suppression_window_correct (SessionTracker.create 5) "n.md" 1000 5000
    (by decide)).2.2 (SessionTracker.create 5) (by decide)
  exact ⟨h1, h2.1, h2.2, h3⟩

/-! ## C3: anchor correctness of getNextOccurrence -/

/-- C3: provided the rrule evaluator's `after(d, inc=false)` returns dates
strictly after `d` (its documented contract), `getNextOccurrence` returns
either a date strictly greater than the anchor or none; the evaluator is
invoked with `dtstart` seeded to the anchor; a malformed rule is caught and
mapped to none together with a logged message (the function is total, so no
exception escapes); and an absent `scheduled` anchors at "now". -/
theorem getNextOccurrence_anchor_correct (env : Env) (rule : Value)
    (cur : Option Value)
    (hafter : ∀ o d d', env.after o d = some d' → d < d') :
    (∀ d', (getNextOccurrence env rule cur).1 = some d' → anchorOf env cur < d') ∧
    (∀ opts, env.parseString rule = .ok opts →
       (getNextOccurrence env rule cur).1
         = env.after { opts with dtstart := some (anchorOf env cur) }
             (anchorOf env cur)) ∧
    (∀ e, env.parseString rule = .error e →
       (getNextOccurrence env rule cur).1 = none ∧
       (getNextOccurrence env rule cur).2 ≠ []) ∧
    (cur = none → anchorOf env cur = env.now) := by
  refine ⟨?_, ?_, ?_, ?_⟩
  · intro d' hd
    cases hps : env.parseString rule with
    | error e => simp [getNextOccurrence, hps] at hd
    | ok opts =>
      simp only [getNextOccurrence, hps] at hd
      exact hafter _ _ _ hd
  · intro opts hps
    simp [getNextOccurrence, hps]
  · intro e hps
    simp [getNextOccurrence, hps]
  · intro h
    subst h
    rfl

/-- A concrete host environment used by the witnesses: a weekly-style
evaluator (`after` adds 7), parsing fails exactly on the string "garbage",
the scheduled parser maps everything to day 10, and no I/O failure is
injected. -/
def envW : Env where
  now := 0
  parseDate := fun _ => 10
  parseString := fun v =>
    match v with
    | .base (.str s) => if s = "garbage" then .error "unparseable" else .ok ⟨none, s⟩
    | _ => .error "not a string"
  after := fun _ d => some (d + 7)
  formatDate := fun d => toString d
  formatTimestamp := fun d => toString d ++ "T00:00:00"
  patchFails := fun _ => false
  createFails := fun _ => false

theorem envW_after_strict : ∀ o d d', envW.after o d = some d' → d < d' := by
  intro o d d' hh
  have : d + 7 = d' := by simpa [envW] using hh
  omega

/-- Witness for C3: a well-formed weekly rule anchored at day 10 yields
day 17 (strictly later), and the malformed rule "garbage" yields none. -/
theorem getNextOccurrence_anchor_correct_witness :
    anchorOf envW (some (vstr "2024-01-01")) < 17 ∧
    (getNextOccurrence envW (vstr "RRULE:FREQ=WEEKLY") (some (vstr "2024-01-01"))).1
      = some 17 ∧
    (getNextOccurrence envW (vstr "garbage") none).1 = none := by
  have h := getNextOccurrence_anchor_correct envW (vstr "RRULE:FREQ=WEEKLY")
    (some (vstr "2024-01-01")) envW_after_strict
  have h2 := getNextOccurrence_anchor_correct envW (vstr "garbage") none
    envW_after_strict
  exact ⟨h.1 17 (by decide), by decide, (h2.2.2.1 "unparseable" rfl).1⟩

/-! ### Vault lemmas -/

/-- The list of file paths in the vault. -/
def vpaths (v : Vault) : List String := v.map (·.path)

theorem vlookup_path (v : Vault) (q : String) (nf : NoteFile)
    (h : vlookup v q = some nf) : nf.path = q := by
  induction v with
  | nil => simp [vlookup] at h
  | cons hd tl ih =>
    by_cases hq : hd.path = q
    · rw [vlookup, if_pos hq] at h
      cases h; exact hq
    · rw [vlookup, if_neg hq] at h
      exact ih h

theorem vlookup_map_pathpres (g : NoteFile → NoteFile)
    (hg : ∀ nf, (g nf).path = nf.path) (v : Vault) (q : String) :
    vlookup (v.map g) q = (vlookup v q).map g := by
  induction v with
  | nil => rfl
  | cons nf tl ih =>
    rw [List.map_cons, vlookup, vlookup, hg nf]
    by_cases h : nf.path = q
    · rw [if_pos h, if_pos h]; rfl
    · rw [if_neg h, if_neg h, ih]

theorem vlookup_patchFM (v : Vault) (p q : String) (f : Fm → Fm) :
    vlookup (patchFM v p f) q
      = (vlookup v q).map
          (fun nf => if nf.path = p then { nf with fm := f nf.fm } else nf) := by
  rw [patchFM]
  exact vlookup_map_pathpres _
    (by intro nf; by_cases h : nf.path = p <;> simp [h]) v q

theorem vlookup_patchFM_self (v : Vault) (p : String) (f : Fm → Fm) :
    vlookup (patchFM v p f) p
      = (vlookup v p).map (fun nf => { nf with fm := f nf.fm }) := by
  rw [vlookup_patchFM]
  cases hv : vlookup v p with
  | none => rfl
  | some nf =>
    have hp : nf.path = p := vlookup_path v p nf hv
    simp only [Option.map_some']
    rw [if_pos hp]

theorem vlookup_patchFM_ne (v : Vault) (p q : String) (f : Fm → Fm) (h : q ≠ p) :
    vlookup (patchFM v p f) q = vlookup v q := by
  rw [vlookup_patchFM]
  cases hv : vlookup v q with
  | none => rfl
  | some nf =>
    have hp : nf.path = q := vlookup_path v q nf hv
    simp only [Option.map_some']
    rw [if_neg (by rw [hp]; exact h)]

theorem vpaths_patchFM (v : Vault) (p : String) (f : Fm → Fm) :
    vpaths (patchFM v p f) = vpaths v := by
  induction v with
  | nil => rfl
  | cons nf tl ih =>
    by_cases h : nf.path = p
    · simpa [patchFM, vpaths, h] using ih
    · simpa [patchFM, vpaths, h] using ih

theorem vlookup_append_of_some (v w : Vault) (q : String) (nf : NoteFile)
    (h : vlookup v q = some nf) : vlookup (v ++ w) q = some nf := by
  induction v with
  | nil => simp [vlookup] at h
  | cons hd tl ih =>
    by_cases hq : hd.path = q
    · rw [vlookup, if_pos hq] at h
      simpa [vlookup, hq] using h
    · rw [vlookup, if_neg hq] at h
      simpa [vlookup, hq] using ih h

theorem vlookup_append_of_none (v w : Vault) (q : String)
    (h : vlookup v q = none) : vlookup (v ++ w) q = vlookup w q := by
  induction v with
  | nil => rfl
  | cons hd tl ih =>
    by_cases hq : hd.path = q
    · rw [vlookup, if_pos hq] at h; simp at h
    · rw [vlookup, if_neg hq] at h
      simpa [vlookup, hq] using ih h

theorem vpaths_vcreate (v : Vault) (p b : String) (pp : Option String)
    (fm : Fm) (body : String) :
    vpaths (vcreate v p b pp fm body) = vpaths v ++ [p] := by
  simp [vcreate, vpaths]

theorem vlookup_clearRecurrenceRule_self (v : Vault) (p : String) :
    vlookup (clearRecurrenceRule v p) p
      = (vlookup v p).map (fun nf => { nf with fm := clearRecurrenceRuleFm nf.fm }) :=
  vlookup_patchFM_self v p _

theorem vlookup_clearRecurrenceRule_ne (v : Vault) (p q : String) (h : q ≠ p) :
    vlookup (clearRecurrenceRule v p) q = vlookup v q :=
  vlookup_patchFM_ne v p q _ h

theorem vpaths_clearRecurrenceRule (v : Vault) (p : String) :
    vpaths (clearRecurrenceRule v p) = vpaths v :=
  vpaths_patchFM v p _

/-- After `clearRecurrenceRule`, the note at that path carries no rule. -/
theorem clearRecurrenceRule_ruleFree (v : Vault) (p : String) (nf : NoteFile)
    (h : vlookup (clearRecurrenceRule v p) p = some nf) :
    fmGet nf.fm "recurrenceRule" = none ∧ fmGet nf.fm "recurrence" = none
      ∧ ruleTruthy nf.fm = false := by
  rw [vlookup_clearRecurrenceRule_self] at h
  cases hv : vlookup v p with
  | none => rw [hv] at h; simp at h
  | some nf0 =>
    rw [hv] at h
    simp only [Option.map_some'] at h
    cases h
    refine ⟨?_, ?_, ruleTruthy_clearRecurrenceRuleFm _⟩
    · rw [clearRecurrenceRuleFm, fmGet_fmDelete_ne _ _ _ (by decide),
        fmGet_fmDelete_self]
    · rw [clearRecurrenceRuleFm, fmGet_fmDelete_self]

/-! ## C6: null occurrence self-heals -/

/-- C6: when the note carries a (truthy) rule but `getNextOccurrence`
returns null, `createNextRecurrenceInstance` creates no file (the vault
keeps exactly its paths), clears both rule fields on the source, logs the
warning, and reports handled = true. -/
theorem null_occurrence_self_heal (env : Env) (settings : Settings) (v : Vault)
    (f : FileRef) (fm : Fm) (carry : Option Value) (rv : Value)
    (hrv : ruleField fm = some rv) (htr : truthy rv = true)
    (hnull : (getNextOccurrence env rv (fmGet fm "scheduled")).1 = none) :
    createNextRecurrenceInstance env settings v f fm carry
      = (clearRecurrenceRule v f.path, true,
         (getNextOccurrence env rv (fmGet fm "scheduled")).2
           ++ ["[TPS GCM] Could not calculate next recurrence date"]) ∧
    vpaths (createNextRecurrenceInstance env settings v f fm carry).1 = vpaths v ∧
    (∀ nf, vlookup (createNextRecurrenceInstance env settings v f fm carry).1 f.path
        = some nf →
      fmGet nf.fm "recurrenceRule" = none ∧ fmGet nf.fm "recurrence" = none) := by
  have hmain : createNextRecurrenceInstance env settings v f fm carry
      = (clearRecurrenceRule v f.path, true,
         (getNextOccurrence env rv (fmGet fm "scheduled")).2
           ++ ["[TPS GCM] Could not calculate next recurrence date"]) := by
    rcases hgo : getNextOccurrence env rv (fmGet fm "scheduled") with ⟨nd, lg⟩
    rw [hgo] at hnull
    have hnd : nd = none := hnull
    subst hnd
    simp [createNextRecurrenceInstance, hrv, htr, hgo]
  refine ⟨hmain, ?_, ?_⟩
  · rw [hmain]
    exact vpaths_clearRecurrenceRule v f.path
  · intro nf h
    rw [hmain] at h
    exact ⟨(clearRecurrenceRule_ruleFree v f.path nf h).1,
           (clearRecurrenceRule_ruleFree v f.path nf h).2.1⟩

/-- Fixture settings for witnesses: recurrence and prompting enabled, with
the default terminal set, default status and window. -/
def settingsW : Settings where
  enableRecurrence := true
  promptOnRecurrenceEdit := true
  recurrenceCompletionStatuses := []
  recurrenceDefaultStatus := ""
  checkOpenChecklistItems := false
  recurrencePromptTimeout := 5

/-- Fixture file handle for witnesses. -/
def fileW : FileRef :=
  { path := "Tasks/Water plants.md", basename := "Water plants",
    parentPath := some "Tasks", extension := "md" }

/-- Fixture note with an unparseable rule. -/
def noteGarbage : NoteFile :=
  { path := "Tasks/Water plants.md", basename := "Water plants",
    parentPath := some "Tasks", extension := "md",
    fm := [("title", vstr "Water plants"), ("recurrenceRule", vstr "garbage"),
           ("scheduled", vstr "2024-01-01"), ("status", vstr "open")],
    body := "water them" }

/-- Witness for C6: the rule "garbage" fails to parse, so the note's rule is
cleared, the call is handled, and the vault keeps exactly its paths. -/
theorem null_occurrence_self_heal_witness :
    ruleField noteGarbage.fm = some (vstr "garbage") ∧
    (getNextOccurrence envW (vstr "garbage") (fmGet noteGarbage.fm "scheduled")).1
      = none ∧
    (createNextRecurrenceInstance envW settingsW [noteGarbage] fileW
        noteGarbage.fm none).2.1 = true ∧
    vpaths (createNextRecurrenceInstance envW settingsW [noteGarbage] fileW
        noteGarbage.fm none).1 = ["Tasks/Water plants.md"] ∧
    (createNextRecurrenceInstance envW settingsW [noteGarbage] fileW
        noteGarbage.fm none).2.2
      = ["[TPS GCM] Failed to calculate next recurrence: unparseable",
         "[TPS GCM] Could not calculate next recurrence date"] := by
  have h := null_occurrence_self_heal envW settingsW [noteGarbage] fileW
    noteGarbage.fm none (vstr "garbage") (by decide) (by decide) (by decide)
  refine ⟨by decide, by decide, ?_, ?_, ?_⟩
  · rw [h.1]
  · rw [h.1]; decide
  · rw [h.1]; decide

/-! ## C2: idempotent successor creation -/

/-- The collision branch of `createNextRecurrenceInstance`: the target path
already exists, so the source rule is cleared, a log entry is written, and
the call reports handled. -/
theorem createNextRecurrenceInstance_collision (env : Env) (settings : Settings)
    (v : Vault) (f : FileRef) (fm : Fm) (carry : Option Value) (rv : Value) (nd : Int)
    (hrv : ruleField fm = some rv) (htr : truthy rv = true)
    (hnd : (getNextOccurrence env rv (fmGet fm "scheduled")).1 = some nd)
    (hex : vexists v (successorPath env f nd) = true) :
    createNextRecurrenceInstance env settings v f fm carry
      = (clearRecurrenceRule v f.path, true,
         (getNextOccurrence env rv (fmGet fm "scheduled")).2
           ++ ["[TPS GCM] Next recurrence already exists, skipping creation: "
               ++ successorPath env f nd]) := by
  rcases hgo : getNextOccurrence env rv (fmGet fm "scheduled") with ⟨nd', lg⟩
  rw [hgo] at hnd
  have hnd' : nd' = some nd := hnd
  subst hnd'
  simp [createNextRecurrenceInstance, hrv, htr, hgo, hex]

/-- The success branch of `createNextRecurrenceInstance`: the target path is
free and creation succeeds; the result duplicates the source content at the
successor path, patches scheduled/title/status there, and clears the rule on
the source. -/
theorem createNextRecurrenceInstance_success (env : Env) (settings : Settings)
    (v : Vault) (f : FileRef) (fm : Fm) (carry : Option Value) (rv : Value) (nd : Int)
    (src : NoteFile)
    (hrv : ruleField fm = some rv) (htr : truthy rv = true)
    (hnd : (getNextOccurrence env rv (fmGet fm "scheduled")).1 = some nd)
    (hex : vexists v (successorPath env f nd) = false)
    (hsrc : vlookup v f.path = some src)
    (hcf : env.createFails (successorPath env f nd) = false) :
    createNextRecurrenceInstance env settings v f fm carry
      = (clearRecurrenceRule
           (patchFM
             (vcreate v (successorPath env f nd)
               (stripDateSuffix f.basename ++ " " ++ env.formatDate nd)
               f.parentPath src.fm src.body)
             (successorPath env f nd)
             (fun fm0 =>
               fmSet (fmSet (fmSet fm0 "scheduled" (vstr (env.formatTimestamp nd)))
                 "title" (vstr (stripDateSuffix f.basename)))
                 "status" (vstr settings.defaultStatus)))
           f.path,
         true,
         (getNextOccurrence env rv (fmGet fm "scheduled")).2
           ++ ["Created next recurrence: " ++ successorFileName env f nd]) := by
  rcases hgo : getNextOccurrence env rv (fmGet fm "scheduled") with ⟨nd', lg⟩
  rw [hgo] at hnd
  have hnd' : nd' = some nd := hnd
  subst hnd'
  simp [createNextRecurrenceInstance, hrv, htr, hgo, hex, hsrc, hcf]

/-- C2: if the successor's target path already exists for a rule-bearing
source note, no new file is created (the vault keeps exactly its paths), the
rule fields are cleared from the source, and the call reports handled = true;
consequently two consecutive calls for the same source note and computed
date never create a second file, and both calls leave the source rule-free. -/
theorem createNextRecurrenceInstance_idempotent (env : Env) (settings : Settings)
    (v : Vault) (f : FileRef) (fm : Fm) (carry carry' : Option Value)
    (rv : Value) (nd : Int)
    (hrv : ruleField fm = some rv) (htr : truthy rv = true)
    (hnd : (getNextOccurrence env rv (fmGet fm "scheduled")).1 = some nd) :
    (vexists v (successorPath env f nd) = true →
      createNextRecurrenceInstance env settings v f fm carry
        = (clearRecurrenceRule v f.path, true,
           (getNextOccurrence env rv (fmGet fm "scheduled")).2
             ++ ["[TPS GCM] Next recurrence already exists, skipping creation: "
                 ++ successorPath env f nd]) ∧
      vpaths (createNextRecurrenceInstance env settings v f fm carry).1 = vpaths v ∧
      (∀ nf, vlookup (createNextRecurrenceInstance env settings v f fm carry).1 f.path
          = some nf → ruleTruthy nf.fm = false)) ∧
    (∀ src, vexists v (successorPath env f nd) = false →
      vlookup v f.path = some src →
      env.createFails (successorPath env f nd) = false →
      vpaths (createNextRecurrenceInstance env settings v f fm carry).1
        = vpaths v ++ [successorPath env f nd] ∧
      (createNextRecurrenceInstance env settings v f fm carry).2.1 = true ∧
      vpaths (createNextRecurrenceInstance env settings
          (createNextRecurrenceInstance env settings v f fm carry).1 f fm carry').1
        = vpaths (createNextRecurrenceInstance env settings v f fm carry).1 ∧
      (createNextRecurrenceInstance env settings
          (createNextRecurrenceInstance env settings v f fm carry).1 f fm carry').2.1
        = true ∧
      (∀ nf, vlookup (createNextRecurrenceInstance env settings v f fm carry).1 f.path
          = some nf → ruleTruthy nf.fm = false) ∧
      (∀ nf, vlookup (createNextRecurrenceInstance env settings
            (createNextRecurrenceInstance env settings v f fm carry).1 f fm carry').1
            f.path = some nf → ruleTruthy nf.fm = false)) := by
  constructor
  · intro hex
    have h := createNextRecurrenceInstance_collision env settings v f fm carry rv nd
      hrv htr hnd hex
    refine ⟨h, ?_, ?_⟩
    · rw [h]; exact vpaths_clearRecurrenceRule v f.path
    · intro nf hnf
      rw [h] at hnf
      exact (clearRecurrenceRule_ruleFree v f.path nf hnf).2.2
  · intro src hex hsrc hcf
    have hne : f.path ≠ successorPath env f nd := by
      intro hh
      rw [vexists, ← hh, hsrc] at hex
      simp at hex
    have h1 := createNextRecurrenceInstance_success env settings v f fm carry rv nd
      src hrv htr hnd hex hsrc hcf
    set tgt := successorPath env f nd with htgt
    set v1 := (createNextRecurrenceInstance env settings v f fm carry).1 with hv1
    have hv1eq : v1 = clearRecurrenceRule
        (patchFM (vcreate v tgt (stripDateSuffix f.basename ++ " " ++ env.formatDate nd)
          f.parentPath src.fm src.body) tgt
          (fun fm0 =>
            fmSet (fmSet (fmSet fm0 "scheduled" (vstr (env.formatTimestamp nd)))
              "title" (vstr (stripDateSuffix f.basename)))
              "status" (vstr settings.defaultStatus)))
        f.path := by
      rw [hv1, h1]
    have hpaths1 : vpaths v1 = vpaths v ++ [tgt] := by
      rw [hv1eq, vpaths_clearRecurrenceRule, vpaths_patchFM, vpaths_vcreate]
    -- the target now exists in v1
    have hlooktgt : ∃ nf1, vlookup v1 tgt = some nf1 := by
      rw [hv1eq, vlookup_clearRecurrenceRule_ne _ _ _ (Ne.symm hne),
        vlookup_patchFM_self]
      have hvn : vlookup v tgt = none := by
        rw [vexists] at hex
        cases hl : vlookup v tgt with
        | none => rfl
        | some x => rw [hl] at hex; simp at hex
      rw [vcreate, vlookup_append_of_none _ _ _ hvn, vlookup, if_pos rfl]
      exact ⟨_, rfl⟩
    have hex1 : vexists v1 tgt = true := by
      rcases hlooktgt with ⟨nf1, hnf1⟩
      rw [vexists, hnf1]; rfl
    have h2 := createNextRecurrenceInstance_collision env settings v1 f fm carry' rv nd
      hrv htr hnd hex1
    refine ⟨hpaths1, by rw [h1], ?_, by rw [h2], ?_, ?_⟩
    · rw [h2]
      exact vpaths_clearRecurrenceRule v1 f.path
    · intro nf hnf
      rw [hv1eq] at hnf
      exact (clearRecurrenceRule_ruleFree _ f.path nf hnf).2.2
    · intro nf hnf
      rw [h2] at hnf
      exact (clearRecurrenceRule_ruleFree v1 f.path nf hnf).2.2

/-- Fixture note with a weekly rule (anchor parses to day 10 in `envW`, next
occurrence day 17). -/
def noteWeekly : NoteFile :=
  { path := "Tasks/Water plants.md", basename := "Water plants",
    parentPath := some "Tasks", extension := "md",
    fm := [("title", vstr "Water plants"),
           ("recurrenceRule", vstr "RRULE:FREQ=WEEKLY"),
           ("scheduled", vstr "2024-01-01"), ("status", vstr "open")],
    body := "water them" }

/-- Witness for C2: creating the successor of the weekly note adds exactly
one file; the second identical call adds none, and both calls report handled
and leave the source rule-free. -/
theorem createNextRecurrenceInstance_idempotent_witness :
    vexists [noteWeekly] (successorPath envW fileW 17) = false ∧
    vpaths (createNextRecurrenceInstance envW settingsW [noteWeekly] fileW
        noteWeekly.fm none).1
      = ["Tasks/Water plants.md", "Tasks/Water plants 17.md"] ∧
    (createNextRecurrenceInstance envW settingsW [noteWeekly] fileW
        noteWeekly.fm none).2.1 = true ∧
    vpaths (createNextRecurrenceInstance envW settingsW
        (createNextRecurrenceInstance envW settingsW [noteWeekly] fileW
          noteWeekly.fm none).1 fileW noteWeekly.fm none).1
      = ["Tasks/Water plants.md", "Tasks/Water plants 17.md"] ∧
    (createNextRecurrenceInstance envW settingsW
        (createNextRecurrenceInstance envW settingsW [noteWeekly] fileW
          noteWeekly.fm none).1 fileW noteWeekly.fm none).2.1 = true := by
  have h := (createNextRecurrenceInstance_idempotent envW settingsW [noteWeekly]
      fileW noteWeekly.fm none none (vstr "RRULE:FREQ=WEEKLY") 17
      (by decide) (by decide) (by decide)).2 noteWeekly
      (by decide) (by decide) (by decide)
  refine ⟨by decide, ?_, h.2.1, ?_, h.2.2.2.1⟩
  · rw [h.1]; decide
  · rw [h.2.2.1, h.1]; decide

/-! ## C4: split strips the source and spawns the successor -/

theorem fmDelete_of_absent (fm : Fm) (k : String) (h : fmGet fm k = none) :
    fmDelete fm k = fm := by
  induction fm with
  | nil => rfl
  | cons kv tl ih =>
    by_cases hk : kv.1 = k
    · rw [fmGet, if_pos hk] at h; simp at h
    · rw [fmGet, if_neg hk] at h
      rw [fmDelete, if_neg hk, ih h]

theorem applyUpdates_clear_fixpoint (fm : Fm) :
    applyUpdates [("recurrenceRule", none), ("recurrence", none)]
        (clearRecurrenceRuleFm fm)
      = clearRecurrenceRuleFm fm := by
  have h1 : fmGet (clearRecurrenceRuleFm fm) "recurrenceRule" = none := by
    rw [clearRecurrenceRuleFm, fmGet_fmDelete_ne _ _ _ (by decide),
      fmGet_fmDelete_self]
  have h2 : fmGet (clearRecurrenceRuleFm fm) "recurrence" = none := by
    rw [clearRecurrenceRuleFm, fmGet_fmDelete_self]
  simp only [applyUpdates, List.foldl]
  rw [fmDelete_of_absent _ _ h1, fmDelete_of_absent _ _ h2]

/-- After a successful successor creation, the source note has exactly its
rule fields stripped. -/
theorem createNext_success_lookup_src (env : Env) (settings : Settings)
    (v : Vault) (f : FileRef) (src : NoteFile) (carry : Option Value)
    (rv : Value) (nd : Int)
    (hrv : ruleField src.fm = some rv) (htr : truthy rv = true)
    (hnd : (getNextOccurrence env rv (fmGet src.fm "scheduled")).1 = some nd)
    (hex : vexists v (successorPath env f nd) = false)
    (hsrc : vlookup v f.path = some src)
    (hcf : env.createFails (successorPath env f nd) = false) :
    vlookup (createNextRecurrenceInstance env settings v f src.fm carry).1 f.path
      = some { src with fm := clearRecurrenceRuleFm src.fm } := by
  have hne : f.path ≠ successorPath env f nd := by
    intro hh
    rw [vexists, ← hh, hsrc] at hex
    simp at hex
  have h1 := createNextRecurrenceInstance_success env settings v f src.fm
    carry rv nd src hrv htr hnd hex hsrc hcf
  rw [h1]
  show vlookup (clearRecurrenceRule _ f.path) f.path = _
  rw [vlookup_clearRecurrenceRule_self, vlookup_patchFM_ne _ _ _ _ hne,
    vcreate, vlookup_append_of_some _ _ _ _ hsrc]
  rfl

/-- After a successful successor creation, the new note at the successor
path is a copy of the source patched at scheduled/title/status. -/
theorem createNext_success_lookup_tgt (env : Env) (settings : Settings)
    (v : Vault) (f : FileRef) (src : NoteFile) (carry : Option Value)
    (rv : Value) (nd : Int)
    (hrv : ruleField src.fm = some rv) (htr : truthy rv = true)
    (hnd : (getNextOccurrence env rv (fmGet src.fm "scheduled")).1 = some nd)
    (hex : vexists v (successorPath env f nd) = false)
    (hsrc : vlookup v f.path = some src)
    (hcf : env.createFails (successorPath env f nd) = false) :
    vlookup (createNextRecurrenceInstance env settings v f src.fm carry).1
        (successorPath env f nd)
      = some { path := successorPath env f nd,
               basename := stripDateSuffix f.basename ++ " " ++ env.formatDate nd,
               parentPath := f.parentPath,
               extension := "md",
               fm := fmSet (fmSet (fmSet src.fm "scheduled"
                       (vstr (env.formatTimestamp nd)))
                     "title" (vstr (stripDateSuffix f.basename)))
                     "status" (vstr settings.defaultStatus),
               body := src.body } := by
  have hne : f.path ≠ successorPath env f nd := by
    intro hh
    rw [vexists, ← hh, hsrc] at hex
    simp at hex
  have hvn : vlookup v (successorPath env f nd) = none := by
    rw [vexists] at hex
    cases hl : vlookup v (successorPath env f nd) with
    | none => rfl
    | some x => rw [hl] at hex; simp at hex
  have h1 := createNextRecurrenceInstance_success env settings v f src.fm
    carry rv nd src hrv htr hnd hex hsrc hcf
  rw [h1]
  show vlookup (clearRecurrenceRule _ f.path) _ = _
  rw [vlookup_clearRecurrenceRule_ne _ _ _ (Ne.symm hne), vlookup_patchFM_self,
    vcreate, vlookup_append_of_none _ _ _ hvn, vlookup, if_pos rfl]
  rfl

/-- In the success configuration, `splitInstance` creates the successor via
`createNextRecurrenceInstance` and then strips the rule from the source; the
final vault is the successor-creation vault with the (idempotent) rule
deletion re-applied to the source, and the tracker has the source marked by
`applyToFiles`. -/
theorem splitInstance_success (k : Nat) (env : Env) (settings : Settings)
    (dec : String → Choice) (st : St) (f : FileRef) (src : NoteFile)
    (rv : Value) (nd : Int)
    (hmd : f.extension = "md")
    (hsrc : vlookup st.vault f.path = some src)
    (hrv : ruleField src.fm = some rv) (htr : truthy rv = true)
    (hnd : (getNextOccurrence env rv (fmGet src.fm "scheduled")).1 = some nd)
    (hex : vexists st.vault (successorPath env f nd) = false)
    (hcf : env.createFails (successorPath env f nd) = false)
    (hpf : env.patchFails f.path = false) :
    splitInstance (k + 1 + 1) env settings dec st f
      = { vault := patchFM
            (createNextRecurrenceInstance env settings st.vault f src.fm none).1
            f.path
            (applyUpdates [("recurrenceRule", none), ("recurrence", none)]),
          tracker := st.tracker.markAsModified f.path env.now } := by
  have hlook1 : vlookup (createNextRecurrenceInstance env settings st.vault f
      src.fm none).1 f.path = some { src with fm := clearRecurrenceRuleFm src.fm } :=
    createNext_success_lookup_src env settings st.vault f src none rv nd
      hrv htr hnd hex hsrc hcf
  have hcache : cacheFm st.vault f = some src.fm := by
    rw [cacheFm, if_pos hmd, hsrc]; rfl
  have hcache1 : cacheFm (createNextRecurrenceInstance env settings st.vault f
      src.fm none).1 f = some (clearRecurrenceRuleFm src.fm) := by
    rw [cacheFm, if_pos hmd, hlook1]; rfl
  have hrt1 : ruleTruthy (clearRecurrenceRuleFm src.fm) = false :=
    ruleTruthy_clearRecurrenceRuleFm src.fm
  have hexists1 : vexists (createNextRecurrenceInstance env settings st.vault f
      src.fm none).1 f.path = true := by
    rw [vexists, hlook1]; rfl
  -- unfold splitInstance at fuel (k+1)+1
  rw [splitInstance]
  rw [hcache]
  simp only
  -- the inner updateFrontmatter at fuel k+1
  rw [updateFrontmatter]
  have hloop : ufPromptLoop k env settings dec
      [("recurrenceRule", none), ("recurrence", none)]
      { st with vault := (createNextRecurrenceInstance env settings st.vault f
          src.fm none).1 } [f]
      = ({ st with vault := (createNextRecurrenceInstance env settings st.vault f
          src.fm none).1 }, false) := by
    rw [ufPromptLoop]
    rw [show cacheFm ({ st with vault := (createNextRecurrenceInstance env settings
        st.vault f src.fm none).1 } : St).vault f
        = some (clearRecurrenceRuleFm src.fm) from hcache1]
    simp [hrt1, ufPromptLoop]
  by_cases hset : settings.enableRecurrence && settings.promptOnRecurrenceEdit
  · simp only [hset, if_true, hloop]
    simp only [Bool.false_eq_true, if_false]
    simp only [applyToFiles, applyToFilesStep, List.foldl, hmd]
    have : (toLowerStr "md" != "md") = false := by decide
    rw [this]
    simp only [Bool.false_eq_true, if_false, hpf, hexists1]
    simp
  · simp only [hset, if_false]
    simp only [Bool.false_eq_true, if_false]
    simp only [applyToFiles, applyToFilesStep, List.foldl, hmd]
    have : (toLowerStr "md" != "md") = false := by decide
    rw [this]
    simp only [Bool.false_eq_true, if_false, hpf, hexists1]
    simp

/-- C4: choosing split on the recurrence prompt for a rule-bearing markdown
note (with a computable next date, a free successor path, and succeeding
vault I/O) returns the split outcome from a shown prompt; afterwards the
source note has exactly its rule fields removed (body and every other field
byte-identical), and a new note exists at the derived successor path whose
content is a copy of the source subsequently field-patched so that
`scheduled` is the computed date's full timestamp, `title` is the stripped
base name, `status` is the configured default, and every other field is
byte-identical to the source. -/
theorem split_strips_and_spawns (k : Nat) (env : Env) (settings : Settings)
    (dec : String → Choice) (st : St) (f : FileRef) (src : NoteFile)
    (rv : Value) (nd : Int)
    (hmd : f.extension = "md")
    (hsrc : vlookup st.vault f.path = some src)
    (hrv : ruleField src.fm = some rv) (htr : truthy rv = true)
    (hnd : (getNextOccurrence env rv (fmGet src.fm "scheduled")).1 = some nd)
    (hex : vexists st.vault (successorPath env f nd) = false)
    (hcf : env.createFails (successorPath env f nd) = false)
    (hpf : env.patchFails f.path = false)
    (hnr : (st.tracker.wasRecentlyModified f.path env.now).1 = false)
    (hdec : dec f.path = Choice.split) :
    (promptForFrontmatterChange (k + 1 + 1 + 1) env settings dec st f).2.1
        = Choice.split ∧
    (promptForFrontmatterChange (k + 1 + 1 + 1) env settings dec st f).2.2 = true ∧
    (∃ nf, vlookup (promptForFrontmatterChange (k + 1 + 1 + 1) env settings dec
        st f).1.vault f.path = some nf ∧
      nf.body = src.body ∧
      fmGet nf.fm "recurrenceRule" = none ∧
      fmGet nf.fm "recurrence" = none ∧
      (∀ k', k' ≠ "recurrenceRule" → k' ≠ "recurrence" →
        fmGet nf.fm k' = fmGet src.fm k')) ∧
    (∃ nf', vlookup (promptForFrontmatterChange (k + 1 + 1 + 1) env settings dec
        st f).1.vault (successorPath env f nd) = some nf' ∧
      nf'.body = src.body ∧
      fmGet nf'.fm "scheduled" = some (vstr (env.formatTimestamp nd)) ∧
      fmGet nf'.fm "title" = some (vstr (stripDateSuffix f.basename)) ∧
      fmGet nf'.fm "status" = some (vstr settings.defaultStatus) ∧
      (∀ k', k' ≠ "scheduled" → k' ≠ "title" → k' ≠ "status" →
        fmGet nf'.fm k' = fmGet src.fm k')) := by
  have hne : f.path ≠ successorPath env f nd := by
    intro hh
    rw [vexists, ← hh, hsrc] at hex
    simp at hex
  rcases hwr : st.tracker.wasRecentlyModified f.path env.now with ⟨b, tr1⟩
  have hb : b = false := by rw [hwr] at hnr; exact hnr
  subst hb
  have hsplit := splitInstance_success k env settings dec
    { st with tracker := tr1 } f src rv nd hmd hsrc hrv htr hnd hex hcf hpf
  have hmain : promptForFrontmatterChange (k + 1 + 1 + 1) env settings dec st f
      = (markFileAsModified env
           (splitInstance (k + 1 + 1) env settings dec { st with tracker := tr1 } f)
           f.path,
         Choice.split, true) := by
    rw [promptForFrontmatterChange, hwr]
    simp only [Bool.false_eq_true, if_false, hdec]
  rw [hmain]
  have hvault : (markFileAsModified env
      (splitInstance (k + 1 + 1) env settings dec { st with tracker := tr1 } f)
      f.path).vault
      = patchFM (createNextRecurrenceInstance env settings st.vault f src.fm none).1
          f.path (applyUpdates [("recurrenceRule", none), ("recurrence", none)]) := by
    rw [hsplit]; rfl
  have hlooksrc := createNext_success_lookup_src env settings st.vault f src none
    rv nd hrv htr hnd hex hsrc hcf
  have hlooktgt := createNext_success_lookup_tgt env settings st.vault f src none
    rv nd hrv htr hnd hex hsrc hcf
  refine ⟨rfl, rfl, ?_, ?_⟩
  · refine ⟨{ src with fm := clearRecurrenceRuleFm src.fm }, ?_, rfl, ?_, ?_, ?_⟩
    · rw [hvault, vlookup_patchFM_self, hlooksrc]
      simp only [Option.map_some']
      rw [applyUpdates_clear_fixpoint]
    · rw [clearRecurrenceRuleFm, fmGet_fmDelete_ne _ _ _ (by decide),
        fmGet_fmDelete_self]
    · rw [clearRecurrenceRuleFm, fmGet_fmDelete_self]
    · intro k' h1 h2
      exact fmGet_clearRecurrenceRuleFm_ne src.fm k' h1 h2
  · refine ⟨{ path := successorPath env f nd,
              basename := stripDateSuffix f.basename ++ " " ++ env.formatDate nd,
              parentPath := f.parentPath, extension := "md",
              fm := fmSet (fmSet (fmSet src.fm "scheduled"
                      (vstr (env.formatTimestamp nd)))
                    "title" (vstr (stripDateSuffix f.basename)))
                    "status" (vstr settings.defaultStatus),
              body := src.body }, ?_, rfl, ?_, ?_, ?_, ?_⟩
    · rw [hvault, vlookup_patchFM_ne _ _ _ _ (Ne.symm hne), hlooktgt]
    · rw [fmGet_fmSet_ne _ _ _ _ (by decide), fmGet_fmSet_ne _ _ _ _ (by decide),
        fmGet_fmSet_self]
    · rw [fmGet_fmSet_ne _ _ _ _ (by decide), fmGet_fmSet_self]
    · rw [fmGet_fmSet_self]
    · intro k' h1 h2 h3
      rw [fmGet_fmSet_ne _ _ _ _ h3, fmGet_fmSet_ne _ _ _ _ h2,
        fmGet_fmSet_ne _ _ _ _ h1]

/-- Witness for C4 on the weekly fixture: choosing split spawns
"Tasks/Water plants 17.md" with the patched fields and strips the rule from
the source note. -/
theorem split_strips_and_spawns_witness :
    (promptForFrontmatterChange (0 + 1 + 1 + 1) envW settingsW (fun _ => Choice.split)
        { vault := [noteWeekly],
          tracker := { modifiedFiles := [], sessionDuration := 300000 } }
        fileW).2.1 = Choice.split ∧
    (promptForFrontmatterChange (0 + 1 + 1 + 1) envW settingsW (fun _ => Choice.split)
        { vault := [noteWeekly],
          tracker := { modifiedFiles := [], sessionDuration := 300000 } }
        fileW).2.2 = true ∧
    ((vlookup (promptForFrontmatterChange (0 + 1 + 1 + 1) envW settingsW
        (fun _ => Choice.split)
        { vault := [noteWeekly],
          tracker := { modifiedFiles := [], sessionDuration := 300000 } }
        fileW).1.vault "Tasks/Water plants.md").map
      (fun nf => fmGet nf.fm "recurrenceRule")) = some none ∧
    ((vlookup (promptForFrontmatterChange (0 + 1 + 1 + 1) envW settingsW
        (fun _ => Choice.split)
        { vault := [noteWeekly],
          tracker := { modifiedFiles := [], sessionDuration := 300000 } }
        fileW).1.vault "Tasks/Water plants 17.md").map
      (fun nf => fmGet nf.fm "status")) = some (some (vstr "open")) ∧
    ((vlookup (promptForFrontmatterChange (0 + 1 + 1 + 1) envW settingsW
        (fun _ => Choice.split)
        { vault := [noteWeekly],
          tracker := { modifiedFiles := [], sessionDuration := 300000 } }
        fileW).1.vault "Tasks/Water plants 17.md").map
      (fun nf => fmGet nf.fm "scheduled")) = some (some (vstr "17T00:00:00")) := by
  have h := split_strips_and_spawns 0 envW settingsW (fun _ => Choice.split)
    { vault := [noteWeekly],
      tracker := { modifiedFiles := [], sessionDuration := 300000 } }
    fileW noteWeekly (vstr "RRULE:FREQ=WEEKLY") 17
    (by decide) (by decide) (by decide) (by decide) (by decide) (by decide)
    rfl rfl (by decide) rfl
  rcases h with ⟨h1, h2, ⟨nf, hnf, _hbody, hr1, _hr2, _hrest⟩,
    ⟨nf', hnf', _hbody', hsch, _htl, hstt, _hrest'⟩⟩
  have hps : ("Tasks/Water plants.md" : String) = fileW.path := rfl
  have hpt : ("Tasks/Water plants 17.md" : String) = successorPath envW fileW 17 := by
    decide
  refine ⟨h1, h2, ?_, ?_, ?_⟩
  · rw [hps, hnf, Option.map_some', hr1]
  · rw [hpt, hnf', Option.map_some', hstt]; decide
  · rw [hpt, hnf', Option.map_some', hsch]; decide

/-! ## C5 and C9: cancel behaviour -/

/-- A file that the tag prompt loop (and hence also the updateFrontmatter
prompt loop, when the updates do not touch `status`) passes over without
prompting: no cached frontmatter, no truthy rule, or a hardcoded terminal
status. -/
def tagSkip (st : St) (g : FileRef) : Prop :=
  cacheFm st.vault g = none ∨
  ∃ fm, cacheFm st.vault g = some fm ∧
    (ruleTruthy fm && !(jsEqStr (fmGet fm "status") "complete")
      && !(jsEqStr (fmGet fm "status") "wont-do")) = false

theorem ufPromptLoop_skips (fuel : Nat) (env : Env) (settings : Settings)
    (dec : String → Choice) (updates : List (String × Option Value)) (st : St)
    (pre l : List FileRef) (hskip : ∀ f' ∈ pre, tagSkip st f') :
    ufPromptLoop fuel env settings dec updates st (pre ++ l)
      = ufPromptLoop fuel env settings dec updates st l := by
  induction pre with
  | nil => rfl
  | cons f' tl ih =>
    have hf' := hskip f' (by simp)
    have htl : ∀ g ∈ tl, tagSkip st g := fun g hg => hskip g (by simp [hg])
    rw [List.cons_append, ufPromptLoop]
    rcases hf' with hnone | ⟨fm, hfm, hcond⟩
    · rw [hnone]
      exact ih htl
    · rw [hfm]
      by_cases hrt : ruleTruthy fm = false
      · simp only [hrt, if_true]
        exact ih htl
      · have hrt' : ruleTruthy fm = true := by
          cases h : ruleTruthy fm
          · exact absurd h hrt
          · rfl
        rw [hrt', Bool.true_and] at hcond
        have hterm : (jsEqStr (fmGet fm "status") "complete"
            || jsEqStr (fmGet fm "status") "wont-do") = true := by
          cases hc : jsEqStr (fmGet fm "status") "complete" <;>
            cases hw : jsEqStr (fmGet fm "status") "wont-do" <;>
              simp [hc, hw] at hcond ⊢
        simp only [hrt', Bool.true_eq_false, if_false, hterm, if_true]
        exact ih htl

theorem tagPromptLoop_skips (fuel : Nat) (env : Env) (settings : Settings)
    (dec : String → Choice) (st : St) (pre l : List FileRef)
    (hskip : ∀ f' ∈ pre, tagSkip st f') :
    tagPromptLoop fuel env settings dec st (pre ++ l)
      = tagPromptLoop fuel env settings dec st l := by
  induction pre with
  | nil => rfl
  | cons f' tl ih =>
    have hf' := hskip f' (by simp)
    have htl : ∀ g ∈ tl, tagSkip st g := fun g hg => hskip g (by simp [hg])
    rw [List.cons_append, tagPromptLoop]
    rcases hf' with hnone | ⟨fm, hfm, hcond⟩
    · rw [hnone]
      exact ih htl
    · rw [hfm]
      simp only [hcond, Bool.false_eq_true, if_false]
      exact ih htl

/-- C9 (amended): on a shown frontmatter-change prompt answered cancel, the
call returns cancel without touching the vault, does NOT record the path in
the suppression tracker (the path still reads as not-recently-modified at
every query time), and an immediately retried call shows the prompt again. -/
theorem prompt_cancel_suppresses_without_marking (k : Nat) (env : Env)
    (settings : Settings) (dec : String → Choice) (st : St) (f : FileRef)
    (hnr : (st.tracker.wasRecentlyModified f.path env.now).1 = false)
    (hdec : dec f.path = Choice.cancel) :
    (promptForFrontmatterChange (k + 1) env settings dec st f).2.1
        = Choice.cancel ∧
    (promptForFrontmatterChange (k + 1) env settings dec st f).2.2 = true ∧
    (promptForFrontmatterChange (k + 1) env settings dec st f).1.vault
        = st.vault ∧
    (∀ q : Int,
      (((promptForFrontmatterChange (k + 1) env settings dec st f).1.tracker
        ).wasRecentlyModified f.path q).1 = false) ∧
    (promptForFrontmatterChange (k + 1) env settings dec
        (promptForFrontmatterChange (k + 1) env settings dec st f).1 f).2.2
      = true := by
  rcases hwr : st.tracker.wasRecentlyModified f.path env.now with ⟨b, tr1⟩
  have hb : b = false := by rw [hwr] at hnr; exact hnr
  subst hb
  -- the residual tracker reports the path as not recent at every time
  have hstable : ∀ q : Int, (tr1.wasRecentlyModified f.path q).1 = false := by
    intro q
    rw [SessionTracker.wasRecentlyModified] at hwr
    cases hl : tlookup st.tracker.modifiedFiles f.path with
    | none =>
      rw [hl] at hwr
      cases hwr
      rw [SessionTracker.wasRecentlyModified, hl]
    | some last =>
      rw [hl] at hwr
      have hwr' : (if last = 0 then (false, st.tracker)
          else if env.now - last > st.tracker.sessionDuration then
            (false, { modifiedFiles := terase st.tracker.modifiedFiles f.path,
                      sessionDuration := st.tracker.sessionDuration })
          else (true, st.tracker)) = (false, tr1) := hwr
      by_cases h0 : last = 0
      · rw [if_pos h0] at hwr'
        cases hwr'
        simp [SessionTracker.wasRecentlyModified, hl, h0]
      · rw [if_neg h0] at hwr'
        by_cases hexp : env.now - last > st.tracker.sessionDuration
        · rw [if_pos hexp] at hwr'
          cases hwr'
          simp [SessionTracker.wasRecentlyModified, tlookup_terase_self]
        · rw [if_neg hexp] at hwr'
          cases hwr'
  have hmain : promptForFrontmatterChange (k + 1) env settings dec st f
      = ({ st with tracker := tr1 }, Choice.cancel, true) := by
    rw [promptForFrontmatterChange, hwr]
    simp only [Bool.false_eq_true, if_false, hdec]
  rw [hmain]
  refine ⟨rfl, rfl, rfl, hstable, ?_⟩
  rcases hwr2 : tr1.wasRecentlyModified f.path env.now with ⟨b2, tr2⟩
  have hb2 : b2 = false := by
    have := hstable env.now
    rw [hwr2] at this
    exact this
  subst hb2
  rw [promptForFrontmatterChange]
  rw [show ({ st with tracker := tr1 } : St).tracker.wasRecentlyModified f.path
      env.now = (false, tr2) from hwr2]
  simp only [Bool.false_eq_true, if_false, hdec]

/-- The empty five-minute tracker used by fixtures. -/
def trackerEmpty : SessionTracker :=
  { modifiedFiles := [], sessionDuration := 300000 }

/-- Fixture state: the weekly note in the vault, nothing tracked. -/
def stWeekly : St := { vault := [noteWeekly], tracker := trackerEmpty }

/-- Counterexample for C9 as stated: with an empty tracker, the shown prompt
answered cancel leaves the tracker with NO entry for the path (it is not
marked as interacted), and an immediately retried call shows the prompt
again — contradicting the claim that cancel marks the path so that a retry
does not re-prompt. -/
theorem prompt_cancel_not_marked_counterexample :
    (promptForFrontmatterChange (0 + 1) envW settingsW (fun _ => Choice.cancel)
        stWeekly fileW).2.2 = true ∧
    (promptForFrontmatterChange (0 + 1) envW settingsW (fun _ => Choice.cancel)
        stWeekly fileW).2.1 = Choice.cancel ∧
    tlookup ((promptForFrontmatterChange (0 + 1) envW settingsW
        (fun _ => Choice.cancel) stWeekly
        fileW).1.tracker.modifiedFiles) "Tasks/Water plants.md" = none ∧
    (promptForFrontmatterChange (0 + 1) envW settingsW (fun _ => Choice.cancel)
        (promptForFrontmatterChange (0 + 1) envW settingsW (fun _ => Choice.cancel)
          stWeekly fileW).1 fileW).2.2 = true := by
  have hw0 : stWeekly.tracker.wasRecentlyModified fileW.path envW.now
      = (false, trackerEmpty) := rfl
  have hmain : promptForFrontmatterChange (0 + 1) envW settingsW
      (fun _ => Choice.cancel) stWeekly fileW
      = (stWeekly, Choice.cancel, true) := by
    rw [promptForFrontmatterChange, hw0]
    simp only [Bool.false_eq_true, if_false]
    rfl
  rw [hmain]
  refine ⟨rfl, rfl, rfl, ?_⟩
  rw [hmain]

/-- Witness for C9's amended statement on the weekly fixture. -/
theorem prompt_cancel_suppresses_without_marking_witness :
    (promptForFrontmatterChange (0 + 1) envW settingsW (fun _ => Choice.cancel)
        stWeekly fileW).2.1 = Choice.cancel ∧
    (promptForFrontmatterChange (0 + 1) envW settingsW (fun _ => Choice.cancel)
        stWeekly fileW).1.vault = stWeekly.vault ∧
    (((promptForFrontmatterChange (0 + 1) envW settingsW (fun _ => Choice.cancel)
        stWeekly fileW).1.tracker).wasRecentlyModified fileW.path 1000).1 = false ∧
    (promptForFrontmatterChange (0 + 1) envW settingsW (fun _ => Choice.cancel)
        (promptForFrontmatterChange (0 + 1) envW settingsW (fun _ => Choice.cancel)
          stWeekly fileW).1 fileW).2.2 = true := by
  have h := prompt_cancel_suppresses_without_marking 0 envW settingsW
    (fun _ => Choice.cancel) stWeekly fileW (by decide) rfl
  exact ⟨h.1, h.2.2.1, h.2.2.2.1 1000, h.2.2.2.2⟩

/-! ## C10: every bulk mutation marks all markdown files before patching -/

theorem tlookup_mark_preserves (t : SessionTracker) (p q : String) (now : Int)
    (h : tlookup t.modifiedFiles p = some now) :
    tlookup (t.markAsModified q now).modifiedFiles p = some now := by
  by_cases hpq : q = p
  · subst hpq
    exact tlookup_markAsModified_self t q now
  · show tlookup ((q, now) :: terase t.modifiedFiles q) p = some now
    rw [tlookup, if_neg hpq, tlookup_terase_ne _ _ _ (Ne.symm hpq)]
    exact h

theorem applyToFilesStep_sessionDuration (env : Env) (cb : Fm → Fm)
    (acc : St × Nat) (f : FileRef) :
    ((applyToFilesStep env cb acc f).1.tracker).sessionDuration
      = acc.1.tracker.sessionDuration := by
  unfold applyToFilesStep
  split
  · rfl
  · split
    · rfl
    · rfl

theorem applyToFilesStep_mark_preserves (env : Env) (cb : Fm → Fm)
    (acc : St × Nat) (f : FileRef) (p : String)
    (h : tlookup acc.1.tracker.modifiedFiles p = some env.now) :
    tlookup ((applyToFilesStep env cb acc f).1.tracker).modifiedFiles p
      = some env.now := by
  unfold applyToFilesStep
  split
  · exact h
  · split
    · exact tlookup_mark_preserves _ _ _ _ h
    · exact tlookup_mark_preserves _ _ _ _ h

theorem applyToFilesStep_marks_md (env : Env) (cb : Fm → Fm)
    (acc : St × Nat) (f : FileRef)
    (hmd : toLowerStr f.extension = "md") :
    tlookup ((applyToFilesStep env cb acc f).1.tracker).modifiedFiles f.path
      = some env.now := by
  have hcond : (toLowerStr f.extension != "md") = false := by
    rw [hmd]; rfl
  unfold applyToFilesStep
  rw [hcond]
  simp only [Bool.false_eq_true, if_false]
  split
  · exact tlookup_markAsModified_self _ _ _
  · exact tlookup_markAsModified_self _ _ _

theorem foldl_step_mark_preserves (env : Env) (cb : Fm → Fm)
    (files : List FileRef) :
    ∀ (acc : St × Nat) (p : String),
      tlookup acc.1.tracker.modifiedFiles p = some env.now →
      tlookup ((files.foldl (applyToFilesStep env cb) acc).1.tracker).modifiedFiles p
        = some env.now := by
  induction files with
  | nil => intro acc p h; exact h
  | cons g rest ih =>
    intro acc p h
    rw [List.foldl_cons]
    exact ih _ p (applyToFilesStep_mark_preserves env cb acc g p h)

theorem foldl_step_duration (env : Env) (cb : Fm → Fm) (files : List FileRef) :
    ∀ acc : St × Nat,
      ((files.foldl (applyToFilesStep env cb) acc).1.tracker).sessionDuration
        = acc.1.tracker.sessionDuration := by
  induction files with
  | nil => intro acc; rfl
  | cons g rest ih =>
    intro acc
    rw [List.foldl_cons, ih]
    exact applyToFilesStep_sessionDuration env cb acc g

theorem foldl_step_marks_mem (env : Env) (cb : Fm → Fm) (files : List FileRef) :
    ∀ (acc : St × Nat) (f : FileRef), f ∈ files → toLowerStr f.extension = "md" →
      tlookup ((files.foldl (applyToFilesStep env cb) acc).1.tracker).modifiedFiles
        f.path = some env.now := by
  induction files with
  | nil =>
    intro acc f hf _
    exact absurd hf (List.not_mem_nil f)
  | cons g rest ih =>
    intro acc f hf hmd
    rw [List.foldl_cons]
    rcases List.mem_cons.mp hf with hfg | hfr
    · subst hfg
      exact foldl_step_mark_preserves env cb rest _ _
        (applyToFilesStep_marks_md env cb acc f hmd)
    · exact ih _ f hfr hmd

/-- C10: every markdown file in an `applyToFiles` batch is marked in the
suppression tracker — including files whose frontmatter patch fails — so
immediately after the bulk edit `wasRecentlyModified` is true for each such
path, and both the focus and the content-modification triggers are
suppressed for it. -/
theorem applyToFiles_marks_all_markdown (fuel : Nat) (env : Env)
    (settings : Settings) (dec : String → Choice) (st : St)
    (files : List FileRef) (cb : Fm → Fm)
    (hdur : 0 ≤ st.tracker.sessionDuration) (hnow : 0 < env.now) :
    ∀ f ∈ files, toLowerStr f.extension = "md" →
      ((((applyToFiles env st files cb).1).tracker).wasRecentlyModified f.path
          env.now).1 = true ∧
      (handleFileFocus fuel env settings dec (applyToFiles env st files cb).1 f).2
        = false ∧
      (handleFileModification fuel env settings dec
          (applyToFiles env st files cb).1 f).2 = false := by
  intro f hf hmd
  have hlook : tlookup (((applyToFiles env st files cb).1).tracker).modifiedFiles
      f.path = some env.now :=
    foldl_step_marks_mem env cb files (st, 0) f hf hmd
  have hdur' : (((applyToFiles env st files cb).1).tracker).sessionDuration
      = st.tracker.sessionDuration :=
    foldl_step_duration env cb files (st, 0)
  have hnz : ¬ (env.now = 0) := by omega
  have hexp : ¬ (env.now - env.now >
      (((applyToFiles env st files cb).1).tracker).sessionDuration) := by
    rw [hdur']; omega
  have hrec : (((applyToFiles env st files cb).1).tracker).wasRecentlyModified
      f.path env.now
      = (true, ((applyToFiles env st files cb).1).tracker) := by
    rw [SessionTracker.wasRecentlyModified, hlook]
    simp [hnz, hexp]
    rw [hdur']
    omega
  refine ⟨by rw [hrec], ?_, ?_⟩
  · rw [handleFileFocus, hrec]
    simp
  · rw [handleFileModification, hrec]
    simp

/-- Environment for the C10 witness: positive clock and every frontmatter
patch throwing. -/
def envFailingPatch : Env :=
  { envW with now := 1000, patchFails := fun _ => true }

/-- Witness for C10: even with the patch failing for every path, the
markdown file in the batch ends up marked and both triggers are
suppressed. -/
theorem applyToFiles_marks_all_markdown_witness :
    envFailingPatch.patchFails "Tasks/Water plants.md" = true ∧
    ((((applyToFiles envFailingPatch stWeekly [fileW]
        (applyUpdates [("status", some (vstr "complete"))])).1).tracker
        ).wasRecentlyModified "Tasks/Water plants.md" 1000).1 = true ∧
    (handleFileFocus (0 + 1) envFailingPatch settingsW (fun _ => Choice.cancel)
        (applyToFiles envFailingPatch stWeekly [fileW]
          (applyUpdates [("status", some (vstr "complete"))])).1 fileW).2
      = false := by
  have h := applyToFiles_marks_all_markdown (0 + 1) envFailingPatch settingsW
    (fun _ => Choice.cancel) stWeekly [fileW]
    (applyUpdates [("status", some (vstr "complete"))])
    (by decide) (by decide) fileW (by simp) (by decide)
  exact ⟨rfl, h.1, h.2.1⟩

/-! ## C8: terminal statuses and the focus/modification triggers -/

/-- C8 (amended): the focus and content-modification triggers show no prompt
for a note whose status is one of the HARDCODED values 'complete' or
'wont-do' (the handlers do not consult the configured terminal set). -/
theorem handlers_skip_hardcoded_terminal (fuel : Nat) (env : Env)
    (settings : Settings) (dec : String → Choice) (st : St) (f : FileRef)
    (fm : Fm) (hfm : cacheFm st.vault f = some fm)
    (hterm : jsEqStr (fmGet fm "status") "complete" = true ∨
             jsEqStr (fmGet fm "status") "wont-do" = true) :
    (handleFileFocus fuel env settings dec st f).2 = false ∧
    (handleFileModification fuel env settings dec st f).2 = false := by
  have hc : (jsEqStr (fmGet fm "status") "complete"
      || jsEqStr (fmGet fm "status") "wont-do") = true := by
    rcases hterm with h | h <;> simp [h]
  rcases hwr : st.tracker.wasRecentlyModified f.path env.now with ⟨b, tr1⟩
  have hfm' : cacheFm ({ st with tracker := tr1 } : St).vault f = some fm := hfm
  constructor
  · rw [handleFileFocus, hwr]
    cases b
    · simp only [Bool.false_eq_true, if_false, hfm']
      by_cases hrt : ruleTruthy fm = false
      · simp [hrt]
      · have hrt' : ruleTruthy fm = true := by
          cases hb : ruleTruthy fm
          · exact absurd hb hrt
          · rfl
        simp [hrt', hc]
    · simp
  · rw [handleFileModification, hwr]
    cases b
    · simp only [Bool.false_eq_true, if_false, hfm']
      by_cases hrt : ruleTruthy fm = false
      · simp [hrt]
      · have hrt' : ruleTruthy fm = true := by
          cases hb : ruleTruthy fm
          · exact absurd hb hrt
          · rfl
        simp [hrt', hc]
    · simp

/-- Settings whose configured terminal set is just "done". -/
def settingsDone : Settings :=
  { settingsW with recurrenceCompletionStatuses := ["done"] }

/-- A rule-bearing note whose status "done" is terminal per configuration
but not one of the hardcoded pair. -/
def noteDone : NoteFile :=
  { path := "Tasks/Review.md", basename := "Review", parentPath := some "Tasks",
    extension := "md",
    fm := [("recurrenceRule", vstr "RRULE:FREQ=DAILY"), ("status", vstr "done")],
    body := "" }

def fileDone : FileRef :=
  { path := "Tasks/Review.md", basename := "Review", parentPath := some "Tasks",
    extension := "md" }

def stDone : St := { vault := [noteDone], tracker := trackerEmpty }

/-- Counterexample for C8 as stated: with the terminal set configured as
["done"], a never-interacted rule-bearing note with status "done" (which IS
in the configured terminal set) gets a prompt from both the focus trigger
and the content-modification trigger. -/
theorem handleFileFocus_configured_terminal_counterexample :
    settingsDone.terminalStatuses.contains "done" = true ∧
    fmGet noteDone.fm "status" = some (vstr "done") ∧
    ruleTruthy noteDone.fm = true ∧
    (handleFileFocus (0 + 1) envW settingsDone (fun _ => Choice.cancel)
        stDone fileDone).2 = true ∧
    (handleFileModification (0 + 1) envW settingsDone (fun _ => Choice.cancel)
        stDone fileDone).2 = true := by
  decide

/-- A rule-bearing note with the hardcoded terminal status 'complete'. -/
def noteComplete : NoteFile :=
  { path := "Tasks/Ship.md", basename := "Ship", parentPath := some "Tasks",
    extension := "md",
    fm := [("recurrenceRule", vstr "RRULE:FREQ=DAILY"),
           ("status", vstr "complete")],
    body := "" }

def fileComplete : FileRef :=
  { path := "Tasks/Ship.md", basename := "Ship", parentPath := some "Tasks",
    extension := "md" }

def stComplete : St := { vault := [noteComplete], tracker := trackerEmpty }

/-- Witness for C8's amended statement: a 'complete' rule-bearing note is
skipped by both triggers. -/
theorem handlers_skip_hardcoded_terminal_witness :
    (handleFileFocus (0 + 1) envW settingsW (fun _ => Choice.cancel)
        stComplete fileComplete).2 = false ∧
    (handleFileModification (0 + 1) envW settingsW (fun _ => Choice.cancel)
        stComplete fileComplete).2 = false :=
  handlers_skip_hardcoded_terminal (0 + 1) envW settingsW (fun _ => Choice.cancel)
    stComplete fileComplete noteComplete.fm (by decide) (Or.inl (by decide))

/-! ## C5: cancel is inert -/

theorem ufPromptLoop_cancel_head (m : Nat) (env : Env) (settings : Settings)
    (dec : String → Choice) (updates : List (String × Option Value)) (st : St)
    (g : FileRef) (rest : List FileRef) (gfm : Fm)
    (hg : cacheFm st.vault g = some gfm)
    (hrule : ruleTruthy gfm = true)
    (hcw : (jsEqStr (fmGet gfm "status") "complete"
        || jsEqStr (fmGet gfm "status") "wont-do") = false)
    (hkey : ((updates.map (·.1)).contains "status") = false)
    (hnr : (st.tracker.wasRecentlyModified g.path env.now).1 = false)
    (hdec : dec g.path = Choice.cancel) :
    (ufPromptLoop (m + 1) env settings dec updates st (g :: rest)).2 = true ∧
    (ufPromptLoop (m + 1) env settings dec updates st (g :: rest)).1.vault
      = st.vault := by
  rcases hwr : st.tracker.wasRecentlyModified g.path env.now with ⟨b, tr1⟩
  have hb : b = false := by rw [hwr] at hnr; exact hnr
  subst hb
  have hprompt : promptForFrontmatterChange (m + 1) env settings dec st g
      = ({ st with tracker := tr1 }, Choice.cancel, true) := by
    rw [promptForFrontmatterChange, hwr]
    simp only [Bool.false_eq_true, if_false, hdec]
  rw [ufPromptLoop, hg]
  simp only [hrule, Bool.true_eq_false, if_false, hcw, hkey, hprompt]
  simp

theorem tagPromptLoop_cancel_head (m : Nat) (env : Env) (settings : Settings)
    (dec : String → Choice) (st : St)
    (g : FileRef) (rest : List FileRef) (gfm : Fm)
    (hg : cacheFm st.vault g = some gfm)
    (hrule : ruleTruthy gfm = true)
    (hc : jsEqStr (fmGet gfm "status") "complete" = false)
    (hw : jsEqStr (fmGet gfm "status") "wont-do" = false)
    (hnr : (st.tracker.wasRecentlyModified g.path env.now).1 = false)
    (hdec : dec g.path = Choice.cancel) :
    (tagPromptLoop (m + 1) env settings dec st (g :: rest)).2 = true ∧
    (tagPromptLoop (m + 1) env settings dec st (g :: rest)).1.vault
      = st.vault := by
  rcases hwr : st.tracker.wasRecentlyModified g.path env.now with ⟨b, tr1⟩
  have hb : b = false := by rw [hwr] at hnr; exact hnr
  subst hb
  have hprompt : promptForFrontmatterChange (m + 1) env settings dec st g
      = ({ st with tracker := tr1 }, Choice.cancel, true) := by
    rw [promptForFrontmatterChange, hwr]
    simp only [Bool.false_eq_true, if_false, hdec]
  have hcond : (ruleTruthy gfm && !(jsEqStr (fmGet gfm "status") "complete")
      && !(jsEqStr (fmGet gfm "status") "wont-do")) = true := by
    rw [hrule, hc, hw]; rfl
  rw [tagPromptLoop, hg]
  simp only [hcond, if_true, hprompt]
  simp

/-- C5: if a frontmatter-mutation trigger (updateFrontmatter, addTag,
removeTag) raises the recurrence prompt (the first non-skipped file `g`
prompts) and the user chooses cancel, the requested field mutation is
applied to no file in the batch (the vault is unchanged) and the operation
returns zero affected files. -/
theorem cancel_is_inert (m : Nat) (env : Env) (settings : Settings)
    (dec : String → Choice) (st : St) (pre rest : List FileRef) (g : FileRef)
    (gfm : Fm) (updates : List (String × Option Value)) (tag key : String)
    (henb : settings.enableRecurrence = true)
    (hpmt : settings.promptOnRecurrenceEdit = true)
    (hskip : ∀ f' ∈ pre, tagSkip st f')
    (hg : cacheFm st.vault g = some gfm)
    (hrule : ruleTruthy gfm = true)
    (hc : jsEqStr (fmGet gfm "status") "complete" = false)
    (hw : jsEqStr (fmGet gfm "status") "wont-do" = false)
    (hkey : ((updates.map (·.1)).contains "status") = false)
    (hnr : (st.tracker.wasRecentlyModified g.path env.now).1 = false)
    (hdec : dec g.path = Choice.cancel) :
    ((updateFrontmatter (m + 1 + 1) env settings dec st (pre ++ g :: rest)
        updates).2 = 0 ∧
     (updateFrontmatter (m + 1 + 1) env settings dec st (pre ++ g :: rest)
        updates).1.vault = st.vault) ∧
    ((addTag (m + 1) env settings dec st (pre ++ g :: rest) tag key).2 = 0 ∧
     (addTag (m + 1) env settings dec st (pre ++ g :: rest) tag key).1.vault
       = st.vault) ∧
    ((removeTag (m + 1) env settings dec st (pre ++ g :: rest) tag key).2 = 0 ∧
     (removeTag (m + 1) env settings dec st (pre ++ g :: rest) tag key).1.vault
       = st.vault) := by
  have hcw : (jsEqStr (fmGet gfm "status") "complete"
      || jsEqStr (fmGet gfm "status") "wont-do") = false := by
    rw [hc, hw]; rfl
  have hflags : (settings.enableRecurrence && settings.promptOnRecurrenceEdit)
      = true := by rw [henb, hpmt]; rfl
  have hufloop := ufPromptLoop_cancel_head m env settings dec updates st g rest
    gfm hg hrule hcw hkey hnr hdec
  have htagloop := tagPromptLoop_cancel_head m env settings dec st g rest
    gfm hg hrule hc hw hnr hdec
  refine ⟨?_, ?_, ?_⟩
  · rw [updateFrontmatter]
    rw [hflags]
    simp only [if_true]
    rw [ufPromptLoop_skips (m + 1) env settings dec updates st pre (g :: rest)
      hskip]
    simp only [hufloop.1, if_true]
    exact ⟨trivial, hufloop.2⟩
  · rw [addTag]
    rw [hflags]
    simp only [if_true]
    rw [tagPromptLoop_skips (m + 1) env settings dec st pre (g :: rest) hskip]
    simp only [htagloop.1, if_true]
    exact ⟨trivial, htagloop.2⟩
  · rw [removeTag]
    rw [hflags]
    simp only [if_true]
    rw [tagPromptLoop_skips (m + 1) env settings dec st pre (g :: rest) hskip]
    simp only [htagloop.1, if_true]
    exact ⟨trivial, htagloop.2⟩

/-- A rule-free note used as a skipped batch member. -/
def notePlain : NoteFile :=
  { path := "Tasks/Plain.md", basename := "Plain", parentPath := some "Tasks",
    extension := "md", fm := [("status", vstr "open")], body := "" }

def filePlain : FileRef :=
  { path := "Tasks/Plain.md", basename := "Plain", parentPath := some "Tasks",
    extension := "md" }

def stTwoNotes : St :=
  { vault := [notePlain, noteWeekly], tracker := trackerEmpty }

/-- Witness for C5: the batch [plain, weekly] with a priority update; the
plain note is skipped, the weekly note prompts, cancel yields zero affected
files and an unchanged vault for all three operations. -/
theorem cancel_is_inert_witness :
    ((updateFrontmatter (0 + 1 + 1) envW settingsW (fun _ => Choice.cancel)
        stTwoNotes [filePlain, fileW]
        [("priority", some (vstr "high"))]).2 = 0 ∧
     (updateFrontmatter (0 + 1 + 1) envW settingsW (fun _ => Choice.cancel)
        stTwoNotes [filePlain, fileW]
        [("priority", some (vstr "high"))]).1.vault = stTwoNotes.vault) ∧
    ((addTag (0 + 1) envW settingsW (fun _ => Choice.cancel) stTwoNotes
        [filePlain, fileW] "urgent" "tags").2 = 0 ∧
     (addTag (0 + 1) envW settingsW (fun _ => Choice.cancel) stTwoNotes
        [filePlain, fileW] "urgent" "tags").1.vault = stTwoNotes.vault) ∧
    ((removeTag (0 + 1) envW settingsW (fun _ => Choice.cancel) stTwoNotes
        [filePlain, fileW] "urgent" "tags").2 = 0 ∧
     (removeTag (0 + 1) envW settingsW (fun _ => Choice.cancel) stTwoNotes
        [filePlain, fileW] "urgent" "tags").1.vault = stTwoNotes.vault) := by
  have h := cancel_is_inert 0 envW settingsW (fun _ => Choice.cancel) stTwoNotes
    [filePlain] [] fileW noteWeekly.fm [("priority", some (vstr "high"))]
    "urgent" "tags" rfl rfl
    (by
      intro f' hf'
      have : f' = filePlain := by simpa using hf'
      subst this
      exact Or.inr ⟨notePlain.fm, by decide, by decide⟩)
    (by decide) (by decide) (by decide) (by decide) (by decide) (by decide) rfl
  exact h

/-! ## C1: terminal status transitions clear rules on the whole batch -/

theorem fmGet_clearRecurrenceRuleFm_rule (fm : Fm) :
    fmGet (clearRecurrenceRuleFm fm) "recurrenceRule" = none := by
  rw [clearRecurrenceRuleFm, fmGet_fmDelete_ne _ _ _ (by decide),
    fmGet_fmDelete_self]

theorem fmGet_clearRecurrenceRuleFm_rec (fm : Fm) :
    fmGet (clearRecurrenceRuleFm fm) "recurrence" = none := by
  rw [clearRecurrenceRuleFm, fmGet_fmDelete_self]

theorem clearRecurrenceRuleFm_idem (fm : Fm) :
    clearRecurrenceRuleFm (clearRecurrenceRuleFm fm) = clearRecurrenceRuleFm fm := by
  show fmDelete (fmDelete (clearRecurrenceRuleFm fm) "recurrenceRule") "recurrence"
    = clearRecurrenceRuleFm fm
  rw [fmDelete_of_absent _ _ (fmGet_clearRecurrenceRuleFm_rule fm)]
  rw [fmDelete_of_absent _ _ (fmGet_clearRecurrenceRuleFm_rec fm)]

/-- The note's status string read against a status list. -/
def statusIn (fm : Fm) (l : List String) : Bool :=
  match fmGet fm "status" with
  | some (.base (.str s)) => l.contains s
  | _ => false

theorem statusIn_congr (fm fm' : Fm) (l : List String)
    (h : fmGet fm' "status" = fmGet fm "status") :
    statusIn fm' l = statusIn fm l := by
  rw [statusIn, statusIn, h]

/-- The rule fields are untouched by a `status` assignment. -/
theorem ruleTruthy_fmSet_status (fm : Fm) (v : Value) :
    ruleTruthy (fmSet fm "status" v) = ruleTruthy fm := by
  rw [ruleTruthy, ruleTruthy, ruleField, ruleField,
    fmGet_fmSet_ne _ _ _ _ (by decide), fmGet_fmSet_ne _ _ _ _ (by decide)]

/-- `clearRecurrenceRuleFm` keeps the status field. -/
theorem fmGet_clearRecurrenceRuleFm_status (fm : Fm) :
    fmGet (clearRecurrenceRuleFm fm) "status" = fmGet fm "status" :=
  fmGet_clearRecurrenceRuleFm_ne fm "status" (by decide) (by decide)

/-- All notes at a path carry no truthy rule. -/
def ruleFreeAt (v : Vault) (p : String) : Prop :=
  ∀ nf, vlookup v p = some nf → ruleTruthy nf.fm = false

/-- The three result shapes of `createNextRecurrenceInstance`: vault
unchanged (and handled = false), rule cleared on the source, or a fresh
successor created followed by the patch and the source clear. -/
theorem createNext_result_cases (env : Env) (settings : Settings) (v : Vault)
    (f : FileRef) (fm : Fm) (carry : Option Value) :
    ((createNextRecurrenceInstance env settings v f fm carry).1 = v ∧
     (createNextRecurrenceInstance env settings v f fm carry).2.1 = false) ∨
    (createNextRecurrenceInstance env settings v f fm carry).1
      = clearRecurrenceRule v f.path ∨
    (∃ tgt b pp sfm sbody pf, vlookup v tgt = none ∧
      (createNextRecurrenceInstance env settings v f fm carry).1
        = clearRecurrenceRule (patchFM (vcreate v tgt b pp sfm sbody) tgt pf)
            f.path) := by
  rcases hrv : ruleField fm with _ | rv
  · left
    simp [createNextRecurrenceInstance, hrv]
  · by_cases htr : truthy rv = true
    · rcases hgo : getNextOccurrence env rv (fmGet fm "scheduled") with ⟨nd, lg⟩
      cases nd with
      | none =>
        right; left
        simp [createNextRecurrenceInstance, hrv, htr, hgo]
      | some d =>
        by_cases hex : vexists v (successorPath env f d) = true
        · right; left
          simp [createNextRecurrenceInstance, hrv, htr, hgo, hex]
        · have hex' : vexists v (successorPath env f d) = false := by
            cases h : vexists v (successorPath env f d)
            · rfl
            · exact absurd h hex
          have hvn : vlookup v (successorPath env f d) = none := by
            rw [vexists] at hex'
            cases hl : vlookup v (successorPath env f d) with
            | none => rfl
            | some x => rw [hl] at hex'; simp at hex'
          rcases hsrc : vlookup v f.path with _ | src
          · left
            simp [createNextRecurrenceInstance, hrv, htr, hgo, hex', hsrc]
          · by_cases hcf : env.createFails (successorPath env f d) = true
            · left
              simp [createNextRecurrenceInstance, hrv, htr, hgo, hex', hsrc, hcf]
            · have hcf' : env.createFails (successorPath env f d) = false := by
                cases h : env.createFails (successorPath env f d)
                · rfl
                · exact absurd h hcf
              right; right
              refine ⟨successorPath env f d,
                stripDateSuffix f.basename ++ " " ++ env.formatDate d,
                f.parentPath, src.fm, src.body,
                (fun fm0 =>
                  fmSet (fmSet (fmSet fm0 "scheduled"
                      (vstr (env.formatTimestamp d)))
                    "title" (vstr (stripDateSuffix f.basename)))
                    "status" (vstr settings.defaultStatus)),
                hvn, ?_⟩
              simp [createNextRecurrenceInstance, hrv, htr, hgo, hex', hsrc, hcf']
    · have htr' : truthy rv = false := by
        cases h : truthy rv
        · rfl
        · exact absurd h htr
      left
      simp [createNextRecurrenceInstance, hrv, htr']

theorem clear_pres (w : Vault) (p q : String) (nf : NoteFile)
    (h : vlookup w q = some nf) :
    vlookup (clearRecurrenceRule w p) q = some nf ∨
    (q = p ∧ vlookup (clearRecurrenceRule w p) q
      = some { nf with fm := clearRecurrenceRuleFm nf.fm }) := by
  by_cases hq : q = p
  · right
    refine ⟨hq, ?_⟩
    subst hq
    rw [vlookup_clearRecurrenceRule_self, h]
    rfl
  · left
    rw [vlookup_clearRecurrenceRule_ne _ _ _ hq, h]

theorem clearRecurrenceRule_ruleFreeAt (w : Vault) (p : String) :
    ruleFreeAt (clearRecurrenceRule w p) p :=
  fun nf h => (clearRecurrenceRule_ruleFree w p nf h).2.2

/-- The vault after one iteration of the terminal-status loop: the
`createNextRecurrenceInstance` result, with the rule cleared explicitly when
the call reported handled = false. -/
def afterStatusStep (env : Env) (settings : Settings) (v : Vault) (f : FileRef)
    (fm : Fm) (carry : Option Value) : Vault :=
  let r := createNextRecurrenceInstance env settings v f fm carry
  if r.2.1 then r.1 else clearRecurrenceRule r.1 f.path

/-- The step vault is always a source-clear of a vault that preserves (up to
rule clearing at the source path) every pre-existing entry. -/
theorem afterStatusStep_shape (env : Env) (settings : Settings) (v : Vault)
    (f : FileRef) (fm : Fm) (carry : Option Value) :
    ∃ w, afterStatusStep env settings v f fm carry = clearRecurrenceRule w f.path ∧
      (∀ q nf, vlookup v q = some nf →
        vlookup w q = some nf ∨
        (q = f.path ∧ vlookup w q
          = some { nf with fm := clearRecurrenceRuleFm nf.fm })) := by
  rcases createNext_result_cases env settings v f fm carry with
    ⟨h1, hh⟩ | h2 | ⟨tgt, b, pp, sfm, sbody, pf, hvn, h3⟩
  · refine ⟨v, ?_, fun q nf h => Or.inl h⟩
    rw [afterStatusStep]
    simp only [hh, Bool.false_eq_true, if_false, h1]
  · by_cases hhd : (createNextRecurrenceInstance env settings v f fm carry).2.1 = true
    · refine ⟨v, ?_, fun q nf h => Or.inl h⟩
      rw [afterStatusStep]
      simp only [hhd, if_true, h2]
    · have hhd' : (createNextRecurrenceInstance env settings v f fm carry).2.1
          = false := by
        cases h : (createNextRecurrenceInstance env settings v f fm carry).2.1
        · rfl
        · exact absurd h hhd
      refine ⟨clearRecurrenceRule v f.path, ?_, fun q nf h => clear_pres v f.path q nf h⟩
      rw [afterStatusStep]
      simp only [hhd', Bool.false_eq_true, if_false, h2]
  · have hpresX : ∀ q nf, vlookup v q = some nf →
        vlookup (patchFM (vcreate v tgt b pp sfm sbody) tgt pf) q = some nf := by
      intro q nf h
      have hne : q ≠ tgt := by
        intro hh
        rw [hh, hvn] at h
        cases h
      rw [vlookup_patchFM_ne _ _ _ _ hne, vcreate, vlookup_append_of_some _ _ _ _ h]
    by_cases hhd : (createNextRecurrenceInstance env settings v f fm carry).2.1 = true
    · refine ⟨patchFM (vcreate v tgt b pp sfm sbody) tgt pf, ?_,
        fun q nf h => Or.inl (hpresX q nf h)⟩
      rw [afterStatusStep]
      simp only [hhd, if_true, h3]
    · have hhd' : (createNextRecurrenceInstance env settings v f fm carry).2.1
          = false := by
        cases h : (createNextRecurrenceInstance env settings v f fm carry).2.1
        · rfl
        · exact absurd h hhd
      refine ⟨clearRecurrenceRule (patchFM (vcreate v tgt b pp sfm sbody) tgt pf)
        f.path, ?_, ?_⟩
      · rw [afterStatusStep]
        simp only [hhd', Bool.false_eq_true, if_false, h3]
      · intro q nf h
        exact clear_pres _ f.path q nf (hpresX q nf h)

/-- Entry preservation across one loop step: every pre-existing note is
kept as-is, or — only at the source path — kept with its rule fields
cleared; and the source path ends rule-free. -/
theorem afterStatusStep_pres (env : Env) (settings : Settings) (v : Vault)
    (f : FileRef) (fm : Fm) (carry : Option Value) :
    (∀ q nf, vlookup v q = some nf →
      vlookup (afterStatusStep env settings v f fm carry) q = some nf ∨
      (q = f.path ∧ vlookup (afterStatusStep env settings v f fm carry) q
        = some { nf with fm := clearRecurrenceRuleFm nf.fm })) ∧
    ruleFreeAt (afterStatusStep env settings v f fm carry) f.path := by
  obtain ⟨w, hw, hpres⟩ := afterStatusStep_shape env settings v f fm carry
  constructor
  · intro q nf h
    rcases hpres q nf h with hsame | ⟨hq, hcl⟩
    · rcases clear_pres w f.path q nf hsame with h' | ⟨hq, h'⟩
      · left
        rw [hw]
        exact h'
      · right
        exact ⟨hq, by rw [hw]; exact h'⟩
    · right
      refine ⟨hq, ?_⟩
      subst hq
      rw [hw, vlookup_clearRecurrenceRule_self, hcl]
      simp only [Option.map_some']
      rw [clearRecurrenceRuleFm_idem]
  · rw [hw]
    exact clearRecurrenceRule_ruleFreeAt w f.path

/-- Existential corollary of `afterStatusStep_pres`: the pre-existing entry
survives with its path and status, and without gaining a rule. -/
theorem afterStatusStep_entry (env : Env) (settings : Settings) (v : Vault)
    (f : FileRef) (fm : Fm) (carry : Option Value) (q : String) (nf : NoteFile)
    (h : vlookup v q = some nf) :
    ∃ nf', vlookup (afterStatusStep env settings v f fm carry) q = some nf' ∧
      nf'.path = nf.path ∧
      fmGet nf'.fm "status" = fmGet nf.fm "status" ∧
      (ruleTruthy nf'.fm = true → ruleTruthy nf.fm = true) := by
  rcases (afterStatusStep_pres env settings v f fm carry).1 q nf h with
    h' | ⟨hq, h'⟩
  · exact ⟨nf, h', rfl, rfl, fun hh => hh⟩
  · refine ⟨{ nf with fm := clearRecurrenceRuleFm nf.fm }, h', rfl,
      fmGet_clearRecurrenceRuleFm_status nf.fm, ?_⟩
    intro hh
    rw [ruleTruthy_clearRecurrenceRuleFm] at hh
    cases hh

/-- Facts about the terminal-status loop: (i) every pre-existing note keeps
its path and status and never gains a rule; (ii) the tracker is untouched;
(iii) every markdown batch member that exists and carries a truthy rule is
traced (with its pre-transition status) and ends rule-free. -/
theorem statusRecurrenceLoop_facts (env : Env) (settings : Settings)
    (fs : List FileRef) : ∀ st : St,
    (∀ q nf, vlookup st.vault q = some nf →
      ∃ nf', vlookup (statusRecurrenceLoop env settings st fs).1.vault q
          = some nf' ∧
        nf'.path = nf.path ∧
        fmGet nf'.fm "status" = fmGet nf.fm "status" ∧
        (ruleTruthy nf'.fm = true → ruleTruthy nf.fm = true)) ∧
    (statusRecurrenceLoop env settings st fs).1.tracker = st.tracker ∧
    (∀ g ∈ fs, g.extension = "md" →
      ∀ nf, vlookup st.vault g.path = some nf → ruleTruthy nf.fm = true →
      (g.path, jsOrNull (fmGet nf.fm "status"))
          ∈ (statusRecurrenceLoop env settings st fs).2 ∧
      ruleFreeAt (statusRecurrenceLoop env settings st fs).1.vault g.path) := by
  induction fs with
  | nil =>
    intro st
    refine ⟨fun q nf h => ⟨nf, h, rfl, rfl, fun hh => hh⟩, rfl, ?_⟩
    intro g hg
    exact absurd hg (List.not_mem_nil g)
  | cons f rest ih =>
    intro st
    rcases hc : cacheFm st.vault f with _ | fm
    · -- skipped: no cached frontmatter
      have hloop : statusRecurrenceLoop env settings st (f :: rest)
          = statusRecurrenceLoop env settings st rest := by
        rw [statusRecurrenceLoop, hc]
      rw [hloop]
      obtain ⟨ih1, ih2, ih3⟩ := ih st
      refine ⟨ih1, ih2, ?_⟩
      intro g hg hmd nf hnf hrt
      rcases List.mem_cons.mp hg with hgf | hgr
      · subst hgf
        rw [cacheFm, if_pos hmd, hnf] at hc
        cases hc
      · exact ih3 g hgr hmd nf hnf hrt
    · -- f has cached frontmatter
      have hfmd : f.extension = "md" := by
        by_cases h : f.extension = "md"
        · exact h
        · rw [cacheFm, if_neg h] at hc
          cases hc
      have hflook : (vlookup st.vault f.path).map (·.fm) = some fm := by
        rw [cacheFm, if_pos hfmd] at hc
        exact hc
      by_cases hrt : ruleTruthy fm = true
      · -- processed
        have hloop : statusRecurrenceLoop env settings st (f :: rest)
            = ((statusRecurrenceLoop env settings
                  { st with vault := (afterStatusStep env settings st.vault f fm (jsOrNull (fmGet fm "status"))) } rest).1,
               (f.path, jsOrNull (fmGet fm "status")) ::
               (statusRecurrenceLoop env settings
                  { st with vault := (afterStatusStep env settings st.vault f fm (jsOrNull (fmGet fm "status"))) } rest).2) := by
          rw [statusRecurrenceLoop, hc]
          simp only [hrt, if_true]
          rfl
        obtain ⟨spres, sfree⟩ := afterStatusStep_pres env settings st.vault f fm
          (jsOrNull (fmGet fm "status"))
        obtain ⟨ih1, ih2, ih3⟩ := ih { st with vault := (afterStatusStep env settings st.vault f fm (jsOrNull (fmGet fm "status"))) }
        -- rule-freedom at f.path survives the tail whenever f.path has an entry
        have hfree_final : ∀ nf0, vlookup st.vault f.path = some nf0 →
            ruleFreeAt (statusRecurrenceLoop env settings
              { st with vault := (afterStatusStep env settings st.vault f fm (jsOrNull (fmGet fm "status"))) } rest).1.vault f.path := by
          intro nf0 h0
          obtain ⟨nf1, h1, _, _, _⟩ := afterStatusStep_entry env settings st.vault
            f fm (jsOrNull (fmGet fm "status")) f.path nf0 h0
          have hfree1 : ruleTruthy nf1.fm = false := sfree nf1 h1
          obtain ⟨nf', h', _, _, hr'⟩ := ih1 f.path nf1 h1
          intro nf'' h''
          have heq : nf'' = nf' := by
            rw [h''] at h'
            cases h'
            rfl
          subst heq
          cases htt : ruleTruthy nf''.fm
          · rfl
          · have := hr' htt
            rw [hfree1] at this
            cases this
        rw [hloop]
        refine ⟨?_, ih2, ?_⟩
        · intro q nf h
          obtain ⟨nf1, h1, hp1, hs1, hr1⟩ := afterStatusStep_entry env settings
            st.vault f fm (jsOrNull (fmGet fm "status")) q nf h
          obtain ⟨nf', h', hp', hs', hr'⟩ := ih1 q nf1 h1
          exact ⟨nf', h', by rw [hp', hp1], by rw [hs', hs1],
            fun hh => hr1 (hr' hh)⟩
        · intro g hg hmd nf hnf hrtg
          rcases List.mem_cons.mp hg with hgf | hgr
          · subst hgf
            have hfm : fm = nf.fm := by
              rw [hnf] at hflook
              cases hflook
              rfl
            refine ⟨?_, hfree_final nf hnf⟩
            exact List.mem_cons.mpr (Or.inl (by rw [hfm]))
          · by_cases hgp : g.path = f.path
            · have hfm : fm = nf.fm := by
                rw [hgp] at hnf
                rw [hnf] at hflook
                cases hflook
                rfl
              refine ⟨?_, by rw [hgp]; exact hfree_final nf (hgp ▸ hnf)⟩
              exact List.mem_cons.mpr (Or.inl (by rw [hgp, hfm]))
            · rcases spres g.path nf hnf with hsame | ⟨hq, _⟩
              · obtain ⟨hmem, hfree⟩ := ih3 g hgr hmd nf hsame hrtg
                exact ⟨List.mem_cons.mpr (Or.inr hmem), hfree⟩
              · exact absurd hq hgp
      · -- skipped: rule not truthy
        have hloop : statusRecurrenceLoop env settings st (f :: rest)
            = statusRecurrenceLoop env settings st rest := by
          rw [statusRecurrenceLoop, hc]
          simp only [hrt]
          simp
        rw [hloop]
        obtain ⟨ih1, ih2, ih3⟩ := ih st
        refine ⟨ih1, ih2, ?_⟩
        intro g hg hmd nf hnf hrtg
        rcases List.mem_cons.mp hg with hgf | hgr
        · subst hgf
          have hfm : fm = nf.fm := by
            rw [hnf] at hflook
            cases hflook
            rfl
          rw [← hfm] at hrtg
          exact absurd hrtg hrt
        · exact ih3 g hgr hmd nf hnf hrtg

/-- When the updates touch `status`, the updateFrontmatter prompt loop skips
every file (the User Exception for status changes). -/
theorem ufPromptLoop_status_all (fuel : Nat) (env : Env) (settings : Settings)
    (dec : String → Choice) (updates : List (String × Option Value)) (st : St)
    (fs : List FileRef)
    (hkey : ((updates.map (·.1)).contains "status") = true) :
    ufPromptLoop fuel env settings dec updates st fs = (st, false) := by
  induction fs with
  | nil => rw [ufPromptLoop]
  | cons f rest ih =>
    rw [ufPromptLoop]
    rcases hc : cacheFm st.vault f with _ | fm
    · exact ih
    · by_cases hrt : ruleTruthy fm = false
      · simp only [hrt, if_true]
        exact ih
      · have hrt' : ruleTruthy fm = true := by
          cases h : ruleTruthy fm
          · exact absurd h hrt
          · rfl
        by_cases hterm : (jsEqStr (fmGet fm "status") "complete"
            || jsEqStr (fmGet fm "status") "wont-do") = true
        · simp only [hrt', Bool.true_eq_false, if_false, hterm, if_true]
          exact ih
        · have hterm' : (jsEqStr (fmGet fm "status") "complete"
              || jsEqStr (fmGet fm "status") "wont-do") = false := by
            cases h : (jsEqStr (fmGet fm "status") "complete"
                || jsEqStr (fmGet fm "status") "wont-do")
            · rfl
            · exact absurd h hterm
          simp only [hrt', Bool.true_eq_false, if_false, hterm',
            Bool.false_eq_true, hkey, if_true]
          exact ih

/-- With status among the updated keys, `updateFrontmatter` is exactly the
unprompted bulk patch. -/
theorem updateFrontmatter_status_eq (n : Nat) (env : Env) (settings : Settings)
    (dec : String → Choice) (st2 : St) (files : List FileRef)
    (upd : List (String × Option Value))
    (hkey : ((upd.map (·.1)).contains "status") = true) :
    updateFrontmatter (n + 1) env settings dec st2 files upd
      = applyToFiles env st2 files (applyUpdates upd) := by
  rw [updateFrontmatter]
  by_cases hfl : (settings.enableRecurrence && settings.promptOnRecurrenceEdit)
      = true
  · simp only [hfl, if_true,
      ufPromptLoop_status_all n env settings dec upd st2 files hkey]
    simp
  · have hfl' : (settings.enableRecurrence && settings.promptOnRecurrenceEdit)
        = false := by
      cases h : (settings.enableRecurrence && settings.promptOnRecurrenceEdit)
      · rfl
      · exact absurd h hfl
    simp only [hfl', Bool.false_eq_true, if_false]

/-- The bulk patch preserves any frontmatter property preserved by its
callback, at every path. -/
theorem foldl_apply_preserves (env : Env) (cb : Fm → Fm) (P : Fm → Prop)
    (hP : ∀ fm0, P fm0 → P (cb fm0)) (files : List FileRef) :
    ∀ (acc : St × Nat) (q : String),
      (∀ nf, vlookup acc.1.vault q = some nf → P nf.fm) →
      ∀ nf', vlookup ((files.foldl (applyToFilesStep env cb) acc).1.vault) q
          = some nf' → P nf'.fm := by
  induction files with
  | nil =>
    intro acc q h nf' h'
    exact h nf' h'
  | cons g rest ihf =>
    intro acc q h nf' h'
    rw [List.foldl_cons] at h'
    refine ihf (applyToFilesStep env cb acc g) q ?_ nf' h'
    intro nf0 h0
    unfold applyToFilesStep at h0
    split at h0
    · exact h nf0 h0
    · split at h0
      · exact h nf0 h0
      · have h0' : vlookup (patchFM acc.1.vault g.path cb) q = some nf0 := h0
        rw [vlookup_patchFM] at h0'
        cases hv : vlookup acc.1.vault q with
        | none => rw [hv] at h0'; cases h0'
        | some nf1 =>
          rw [hv] at h0'
          simp only [Option.map_some'] at h0'
          by_cases hp : nf1.path = g.path
          · rw [if_pos hp] at h0'
            cases h0'
            exact hP _ (h _ hv)
          · rw [if_neg hp] at h0'
            cases h0'
            exact h _ hv

theorem vlookup_updateChecklistItems (v : Vault) (p : String) (c : Char)
    (q : String) :
    vlookup (updateChecklistItems v p c) q
      = (vlookup v q).map (fun nf =>
          if nf.path = p then
            { nf with body := (String.intercalate "\n" ((splitLines nf.body).map (updateChecklistLine c))) }
          else nf) := by
  rw [updateChecklistItems]
  exact vlookup_map_pathpres _
    (by intro nf; by_cases h : nf.path = p <;> simp [h]) v q

/-- The checklist step either keeps the state or rewrites one note's body. -/
theorem checklistStep_cases (settings : Settings) (ca : ChecklistAction)
    (st st1 : St) (files : List FileRef) (status : String)
    (h : checklistStep settings ca st files status = some st1) :
    st1 = st ∨ ∃ p c, st1 = { st with vault := updateChecklistItems st.vault p c } := by
  unfold checklistStep at h
  split at h
  · split at h
    · split at h
      · split at h
        · cases h
        · cases h
        · cases h
          right
          exact ⟨_, 'x', rfl⟩
        · cases h
          right
          exact ⟨_, '?', rfl⟩
        · cases h
          left
          rfl
      · cases h
        left
        rfl
    · cases h
      left
      rfl
  · cases h
    left
    rfl

/-- The checklist step preserves every note's frontmatter and path, and the
tracker. -/
theorem checklistStep_entry (settings : Settings) (ca : ChecklistAction)
    (st st1 : St) (files : List FileRef) (status : String)
    (h : checklistStep settings ca st files status = some st1) :
    (∀ q nf, vlookup st.vault q = some nf →
      ∃ nf1, vlookup st1.vault q = some nf1 ∧ nf1.fm = nf.fm ∧
        nf1.path = nf.path) ∧
    st1.tracker = st.tracker := by
  rcases checklistStep_cases settings ca st st1 files status h with h1 | ⟨p, c, h1⟩
  · subst h1
    exact ⟨fun q nf hq => ⟨nf, hq, rfl, rfl⟩, rfl⟩
  · subst h1
    refine ⟨?_, rfl⟩
    intro q nf hq
    have hvx : ({ st with vault := updateChecklistItems st.vault p c } : St).vault
      = updateChecklistItems st.vault p c := rfl
    rw [hvx, vlookup_updateChecklistItems, hq]
    simp only [Option.map_some']
    by_cases hp : nf.path = p
    · rw [if_pos hp]
      exact ⟨_, rfl, rfl, rfl⟩
    · rw [if_neg hp]
      exact ⟨nf, rfl, rfl, rfl⟩

/-- C1 (amended): for a call to `setStatus(files, s)` with recurrence
enabled and `s` in the configured terminal set, provided the single-file
checklist prompt does not abort the operation and the frontmatter patches
succeed, (a) every markdown file in the batch that exists and carries a
truthy rule has `createNextRecurrenceInstance` invoked with its
pre-transition status (the ghost trace records the pair), and (b) afterwards
no such batch file is rule-bearing — in particular none is both in a
terminal status and rule-bearing. -/
theorem setStatus_terminal_clears_rules (m : Nat) (env : Env)
    (settings : Settings) (dec : String → Choice) (caction : ChecklistAction)
    (st st1 : St) (files : List FileRef) (status : String)
    (henb : settings.enableRecurrence = true)
    (hterm : settings.terminalStatuses.contains status = true)
    (hcl : checklistStep settings caction st files status = some st1)
    (hpf : ∀ p, env.patchFails p = false) :
    (∀ f ∈ files, f.extension = "md" →
      ∀ nf, vlookup st.vault f.path = some nf → ruleTruthy nf.fm = true →
      (f.path, jsOrNull (fmGet nf.fm "status"))
        ∈ (setStatus (m + 1) env settings dec caction st files status).2.2) ∧
    (∀ f ∈ files, f.extension = "md" →
      (∃ nf, vlookup st.vault f.path = some nf) →
      ∀ nf', vlookup (setStatus (m + 1) env settings dec caction st files
          status).1.vault f.path = some nf' →
        ruleTruthy nf'.fm = false ∧
        ¬(statusIn nf'.fm settings.terminalStatuses = true ∧
          ruleTruthy nf'.fm = true)) := by
  have hflags : (settings.enableRecurrence
      && settings.terminalStatuses.contains status) = true := by
    rw [henb, hterm]; rfl
  have hmain : setStatus (m + 1) env settings dec caction st files status
      = ((applyToFiles env (statusRecurrenceLoop env settings st1 files).1 files
            (applyUpdates [("status", some (vstr status))])).1,
         (applyToFiles env (statusRecurrenceLoop env settings st1 files).1 files
            (applyUpdates [("status", some (vstr status))])).2,
         (statusRecurrenceLoop env settings st1 files).2) := by
    rw [setStatus, hcl]
    simp only [hflags, if_true]
    rw [updateFrontmatter_status_eq m env settings dec
      (statusRecurrenceLoop env settings st1 files).1 files
      [("status", some (vstr status))] rfl]
  obtain ⟨hentry, _htr⟩ := checklistStep_entry settings caction st st1 files
    status hcl
  obtain ⟨l1, _l2, l3⟩ := statusRecurrenceLoop_facts env settings files st1
  constructor
  · intro f hf hmd nf hnf hrt
    obtain ⟨nf1, h1, hfm1, _hp1⟩ := hentry f.path nf hnf
    have hrt1 : ruleTruthy nf1.fm = true := by rw [hfm1]; exact hrt
    obtain ⟨hmem, _hfree⟩ := l3 f hf hmd nf1 h1 hrt1
    rw [hmain, ← hfm1]
    exact hmem
  · intro f hf hmd hex nf' hnf'
    obtain ⟨nf, hnf⟩ := hex
    obtain ⟨nf1, h1, hfm1, _hp1⟩ := hentry f.path nf hnf
    have hfreeLoop : ruleFreeAt (statusRecurrenceLoop env settings st1 files).1.vault
        f.path := by
      by_cases hrt : ruleTruthy nf.fm = true
      · exact (l3 f hf hmd nf1 h1 (by rw [hfm1]; exact hrt)).2
      · have hrt1 : ruleTruthy nf1.fm = false := by
          rw [hfm1]
          cases h : ruleTruthy nf.fm
          · rfl
          · exact absurd h hrt
        obtain ⟨nf2, h2, _, _, hr2⟩ := l1 f.path nf1 h1
        intro nf3 h3
        have heq : nf3 = nf2 := by
          rw [h3] at h2
          cases h2
          rfl
        subst heq
        cases htt : ruleTruthy nf3.fm
        · rfl
        · have := hr2 htt
          rw [hrt1] at this
          cases this
    have hfreeFinal : ruleTruthy nf'.fm = false := by
      rw [hmain] at hnf'
      refine foldl_apply_preserves env
        (applyUpdates [("status", some (vstr status))])
        (fun fm0 => ruleTruthy fm0 = false) ?_ files
        ((statusRecurrenceLoop env settings st1 files).1, 0) f.path ?_ nf' hnf'
      · intro fm0 h0
        have heq : applyUpdates [("status", some (vstr status))] fm0
            = fmSet fm0 "status" (vstr status) := rfl
        rw [heq, ruleTruthy_fmSet_status]
        exact h0
      · exact hfreeLoop
    refine ⟨hfreeFinal, ?_⟩
    rintro ⟨_, hcontra⟩
    rw [hfreeFinal] at hcontra
    cases hcontra

/-- Settings with the single-file open-checklist prompt enabled. -/
def settingsChecklist : Settings :=
  { settingsW with checkOpenChecklistItems := true }

/-- A rule-bearing, already-terminal note with an open checklist item. -/
def noteChecklist : NoteFile :=
  { path := "Tasks/Water plants.md", basename := "Water plants",
    parentPath := some "Tasks", extension := "md",
    fm := [("recurrenceRule", vstr "RRULE:FREQ=WEEKLY"),
           ("scheduled", vstr "2024-01-01"), ("status", vstr "complete")],
    body := "- [ ] refill watering can" }

def stChecklist : St := { vault := [noteChecklist], tracker := trackerEmpty }

/-- Counterexample for C1 as stated: with recurrence enabled, the target
status in the terminal set, patches succeeding, and a markdown rule-bearing
batch file, a setStatus call aborted by the checklist prompt (user cancels)
invokes no successor creation (empty trace), affects zero files, and leaves
the file both terminal and rule-bearing. -/
theorem setStatus_checklist_cancel_counterexample :
    settingsChecklist.enableRecurrence = true ∧
    settingsChecklist.terminalStatuses.contains "complete" = true ∧
    ruleTruthy noteChecklist.fm = true ∧
    envW.patchFails "Tasks/Water plants.md" = false ∧
    0 < (scanChecklistItems stChecklist.vault fileW).length ∧
    (setStatus (0 + 1) envW settingsChecklist (fun _ => Choice.cancel)
        ChecklistAction.cancel stChecklist [fileW] "complete").2.2 = [] ∧
    (setStatus (0 + 1) envW settingsChecklist (fun _ => Choice.cancel)
        ChecklistAction.cancel stChecklist [fileW] "complete").2.1 = 0 ∧
    ((vlookup (setStatus (0 + 1) envW settingsChecklist (fun _ => Choice.cancel)
        ChecklistAction.cancel stChecklist [fileW] "complete").1.vault
        "Tasks/Water plants.md").map (fun nf => ruleTruthy nf.fm)) = some true ∧
    ((vlookup (setStatus (0 + 1) envW settingsChecklist (fun _ => Choice.cancel)
        ChecklistAction.cancel stChecklist [fileW] "complete").1.vault
        "Tasks/Water plants.md").map
        (fun nf => statusIn nf.fm settingsChecklist.terminalStatuses))
      = some true := by
  decide

/-- Witness for C1's amended statement on the weekly fixture: completing the
weekly note traces the successor invocation with pre-transition status
"open", and afterwards the note cannot be rule-bearing. -/
theorem setStatus_terminal_clears_rules_witness :
    (("Tasks/Water plants.md" : String), jsOrNull (fmGet noteWeekly.fm "status"))
      ∈ (setStatus (0 + 1) envW settingsW (fun _ => Choice.updateAll)
          ChecklistAction.ignore stWeekly [fileW] "complete").2.2 ∧
    ((vlookup (setStatus (0 + 1) envW settingsW (fun _ => Choice.updateAll)
        ChecklistAction.ignore stWeekly [fileW] "complete").1.vault
        "Tasks/Water plants.md").map (fun nf => ruleTruthy nf.fm))
      ≠ some true := by
  have h := setStatus_terminal_clears_rules 0 envW settingsW
    (fun _ => Choice.updateAll) ChecklistAction.ignore stWeekly stWeekly
    [fileW] "complete" rfl (by decide) (by decide) (fun _ => rfl)
  refine ⟨h.1 fileW (by simp) rfl noteWeekly (by decide) (by decide), ?_⟩
  intro hcontra
  cases hlk : vlookup (setStatus (0 + 1) envW settingsW (fun _ => Choice.updateAll)
      ChecklistAction.ignore stWeekly [fileW] "complete").1.vault
      "Tasks/Water plants.md" with
  | none => rw [hlk] at hcontra; cases hcontra
  | some nf' =>
    rw [hlk] at hcontra
    simp only [Option.map_some'] at hcontra
    have hfalse := (h.2 fileW (by simp) rfl ⟨noteWeekly, by decide⟩ nf' hlk).1
    have htrue : ruleTruthy nf'.fm = true := Option.some.inj hcontra
    rw [hfalse] at htrue
    cases htrue

end TPS
